import Mathlib

/-!
Verification of the `upstash/rdb` snapshot codec against its specification.

The Go sources are shallowly embedded: byte strings become `List Nat`
(each element a byte value `< 256`), machine integers become `Nat`/`Int`
with explicit wrap-around where the Go code relies on it, fallible
functions return `Except GoErr`, and the handler callbacks of the
streaming decoder become explicit state-threading functions
`σ → α → σ × Option GoErr` (a Go callback both mutates captured state and
returns an error; both effects are kept, because the stream decoder
discards the returned error while keeping the mutations).

Loops of the Go sources that are bounded only by a sentinel byte are
embedded with an explicit fuel argument; every such loop consumes at
least one byte of the underlying buffer per iteration, so supplying
`data.length + 1` units of fuel reproduces the Go behaviour exactly.
-/

namespace RDB

set_option maxRecDepth 100000

/-- A Go byte string, as the list of its byte values. -/
abbrev Str := List Nat

/-- All distinguishable error values produced by the embedded code.
Each constructor corresponds to one `errors.New` / `fmt.Errorf` site (or
sentinel error variable) of the Go sources; callbacks of test handlers
use `handlerAbort`. -/
inductive GoErr where
  | unexpectedEOF              -- io.ErrUnexpectedEOF
  | ioEOF                      -- io.EOF (empty read at end of file)
  | zmUnexpectedEnd            -- errZMUnexpectedEnd
  | zlUnexpectedEnd            -- errZLUnexpectedEnd
  | lpUnexpectedEnd            -- errLPUnexpectedEnd
  | tooBigLz77String           -- errTooBigLz77String
  | corruptContent             -- errCorruptContent
  | unexpectedLenEncoding      -- "unexpected length encoding"
  | unexpectedStringEncoding   -- "unexpected string encoding"
  | unexpectedListpackEncoding -- "unexpected listpack encoding"
  | unexpectedIntsetEncoding   -- "unexpected intset encoding"
  | unexpectedQuicklist2Container -- "unexpected quicklist2 container"
  | unknownObjectType (t : Nat)   -- "unknown RDB object type %d"
  | unknownEncodingType (t : Nat) -- "unknown RDB encoding type %d"
  | atoiFailed                 -- strconv.Atoi / strconv.ParseInt failure
  | parseFloatFailed           -- strconv.ParseFloat failure
  | illegalStatePEL            -- "illegal state: an entry is in PEL but ..."
  | unexpectedModuleOpcode     -- "unexpected module opcode" / "unexpected opcode"
  | moduleNotEOF               -- "module not terminated with EOF"
  | unsupportedModule          -- "unsupported module <name>"
  | unexpectedJSONModuleVersion -- "unexpected JSON module version"
  | unexpectedNodeType         -- "unexpected node type"
  | unexpectedInnerNodeType    -- "unexpected inner node type"
  | unableToReadJSONModule     -- "unable to read JSON module content"
  | wrongSignature             -- "wrong signature trying to load DB from file"
  | unsupportedVersion (v : Int) -- "cannot handle RDB format version %d"
  | unexpectedCRCLen           -- "unexpected CRC length at the end of the RDB file"
  | badCRC                     -- "wrong CRC at the end of the RDB file"
  | invalidValueCRC            -- "invalid CRC value for the payload"
  | unsupportedValueVersion (v : Nat) -- "RDB version %d is not supported by Upstash"
  | multipleDatabases          -- "multiple databases are not supported ..."
  | preGAFunction              -- "pre-release function format not supported"
  | functionNotSupported       -- "restoring function payload is not supported ..."
  | writerLimitExceeded        -- "exceeded write buffer limit"
  | zsetLengthMismatch         -- "elements and scores must be of the same length"
  | maxDataSizeExceeded (current limit : Int)
  | maxEntrySizeExceeded (current limit : Int)
  | maxKeySizeExceeded (current limit : Int)
  | maxStreamPELSizeExceeded (current limit : Int)
  | maxStreamStrSizeExceeded (current limit : Int)
  | handlerAbort (tag : Nat)   -- an error returned by a user handler callback
  | fuelExhausted              -- embedding artefact; unreachable with enough fuel
  deriving DecidableEq, Repr

/-- `true` when every element of the list is a byte value. -/
def bytesWF (l : List Nat) : Bool := l.all (· < 256)

/-- The positioned byte source of `buffer.go` (`memoryBackedBuffer`).
The file-backed buffer of the envelope reader exposes the same `Get`/`Pos`
contract over the file's logical region, so it is embedded by the same
structure. -/
structure Buf where
  data : List Nat
  pos : Nat
  deriving DecidableEq, Repr

/-- `newMemoryBackedBuffer`. -/
def Buf.ofBytes (d : List Nat) : Buf := ⟨d, 0⟩

/-- `memoryBackedBuffer.Get`: return the next `n` bytes and advance, or
fail with unexpected EOF when the read would cross the known end. -/
def Buf.get (b : Buf) (n : Nat) : Except GoErr (List Nat × Buf) :=
  if b.data.length < b.pos + n then .error .unexpectedEOF
  else .ok ((b.data.drop b.pos).take n, ⟨b.data, b.pos + n⟩)

/-- `buffer.View (pos)`: a second cursor over the same bytes. -/
def Buf.view (b : Buf) (p : Nat) : Buf := ⟨b.data, p⟩

/-- Two's-complement reading of a byte as Go `int8`. -/
def toInt8 (n : Nat) : Int :=
  if n % 256 < 128 then ((n % 256 : Nat) : Int) else ((n % 256 : Nat) : Int) - 256

/-- Two's-complement reading of a 16-bit value as Go `int16`. -/
def toInt16 (n : Nat) : Int :=
  if n % 2 ^ 16 < 2 ^ 15 then ((n % 2 ^ 16 : Nat) : Int)
  else ((n % 2 ^ 16 : Nat) : Int) - 2 ^ 16

/-- Two's-complement reading of a 32-bit value as Go `int32`. -/
def toInt32 (n : Nat) : Int :=
  if n % 2 ^ 32 < 2 ^ 31 then ((n % 2 ^ 32 : Nat) : Int)
  else ((n % 2 ^ 32 : Nat) : Int) - 2 ^ 32

/-- Two's-complement reading of a 64-bit value as Go `int64` (also Go `int`). -/
def toInt64 (n : Nat) : Int :=
  if n % 2 ^ 64 < 2 ^ 63 then ((n % 2 ^ 64 : Nat) : Int)
  else ((n % 2 ^ 64 : Nat) : Int) - 2 ^ 64

/-- Go conversion of an `int64` back to `uint64` (two's complement). -/
def toUint64 (i : Int) : Nat := (i % (2 ^ 64 : Int)).toNat

/-- Iteration count of a Go loop `for i := 0; i < int(length); i++` where
`length` is a `uint64`: when the reinterpreted value is negative the loop
body never runs. -/
def loopCount (length : Nat) : Nat := (toInt64 length).toNat

/-- ASCII decimal digits of a natural number, most significant first.
Structural fuel keeps the definition kernel-reducible; `n + 1` units
always suffice. -/
def natDigitsAux : Nat → Nat → List Nat
  | 0, _ => []
  | fuel + 1, n => if n < 10 then [48 + n] else natDigitsAux fuel (n / 10) ++ [48 + n % 10]

/-- `strconv.Itoa`: ASCII decimal rendering of a Go integer. -/
def goItoa (i : Int) : Str :=
  if i < 0 then 45 :: natDigitsAux ((-i).toNat + 1) (-i).toNat
  else natDigitsAux (i.toNat + 1) i.toNat

/-- One parsed digit step of `goAtoi`. -/
def goAtoiDigits : List Nat → Option Nat
  | [] => some 0
  | c :: cs =>
    if 48 ≤ c ∧ c ≤ 57 then
      match goAtoiDigits cs with
      | some v => some ((c - 48) * 10 ^ cs.length + v)
      | none => none
    else none

/-- `strconv.Atoi` (equally `strconv.ParseInt(s, 10, 64)`): optional single
sign, at least one digit, all digits, result within the `int64` range. -/
def goAtoi (s : Str) : Except GoErr Int :=
  let (neg, ds) : Bool × List Nat :=
    match s with
    | 43 :: rest => (false, rest)
    | 45 :: rest => (true, rest)
    | rest => (false, rest)
  match ds, goAtoiDigits ds with
  | [], _ => .error .atoiFailed
  | _, none => .error .atoiFailed
  | _, some v =>
    let i : Int := if neg then -(v : Int) else (v : Int)
    if i < -(2 ^ 63) ∨ (2 ^ 63 : Int) ≤ i + 1 ∧ i ≠ 2 ^ 63 - 1 then .error .atoiFailed
    else .ok i

/-- Stand-in for `strconv.ParseFloat(s, 64)` returning IEEE-754 bits.
Floating point is outside the embedding; no theorem of this file depends
on the bits returned for a successful parse, only on success being
limit-independent, so any total stand-in is sound here. -/
def goParseFloatBits (s : Str) : Except GoErr Nat :=
  if s.isEmpty then .error .parseFloatFailed else .ok 0

/-- Stand-in for `strconv.FormatFloat(f, g, -1, 64)`; same remark as
`goParseFloatBits`. -/
def goFormatFloat (bits : Nat) : Str := natDigitsAux (bits + 1) bits

/-- `valueReader.readUint8`. -/
def readUint8 (b : Buf) : Except GoErr (Nat × Buf) := do
  let (bs, b) ← b.get 1
  .ok (bs.getD 0 0, b)

/-- `valueReader.readUint16` (little endian). -/
def readUint16 (b : Buf) : Except GoErr (Nat × Buf) := do
  let (bs, b) ← b.get 2
  .ok (bs.getD 0 0 + 256 * bs.getD 1 0, b)

/-- `valueReader.readUint32` (little endian). -/
def readUint32 (b : Buf) : Except GoErr (Nat × Buf) := do
  let (bs, b) ← b.get 4
  .ok (bs.getD 0 0 + 256 * bs.getD 1 0 + 256 ^ 2 * bs.getD 2 0 + 256 ^ 3 * bs.getD 3 0, b)

/-- `valueReader.readUint32BE` (big endian). -/
def readUint32BE (b : Buf) : Except GoErr (Nat × Buf) := do
  let (bs, b) ← b.get 4
  .ok (256 ^ 3 * bs.getD 0 0 + 256 ^ 2 * bs.getD 1 0 + 256 * bs.getD 2 0 + bs.getD 3 0, b)

/-- `valueReader.readUint64` (little endian). -/
def readUint64 (b : Buf) : Except GoErr (Nat × Buf) := do
  let (bs, b) ← b.get 8
  .ok (bs.getD 0 0 + 256 * bs.getD 1 0 + 256 ^ 2 * bs.getD 2 0 + 256 ^ 3 * bs.getD 3 0 +
       256 ^ 4 * bs.getD 4 0 + 256 ^ 5 * bs.getD 5 0 + 256 ^ 6 * bs.getD 6 0 +
       256 ^ 7 * bs.getD 7 0, b)

/-- `valueReader.readUint64BE` (big endian). -/
def readUint64BE (b : Buf) : Except GoErr (Nat × Buf) := do
  let (bs, b) ← b.get 8
  .ok (256 ^ 7 * bs.getD 0 0 + 256 ^ 6 * bs.getD 1 0 + 256 ^ 5 * bs.getD 2 0 +
       256 ^ 4 * bs.getD 3 0 + 256 ^ 3 * bs.getD 4 0 + 256 ^ 2 * bs.getD 5 0 +
       256 * bs.getD 6 0 + bs.getD 7 0, b)

/-- `valueReader.read`. -/
def readBytes (b : Buf) (n : Nat) : Except GoErr (List Nat × Buf) := b.get n

/-- `valueReader.skip`. -/
def skipBytes (b : Buf) (n : Nat) : Except GoErr Buf := do
  let (_, b) ← b.get n
  .ok b

/-- `valueReader.readLen`: the four-way length prefix decoder of
`reader.go` (dispatch on the top two bits of the first byte, the special
sub-cases `0x80`/`0x81` of the `10` arm, and the trailing error return). -/
def readLen (b : Buf) : Except GoErr (Nat × Bool × Buf) := do
  let (b0, b) ← readUint8 b
  if b0 &&& 0xC0 = 0x00 then
    .ok (b0 &&& 0x3F, false, b)
  else if b0 &&& 0xC0 = 0x40 then do
    let (b1, b) ← readUint8 b
    .ok ((b0 &&& 0x3F) <<< 8 ||| b1, false, b)
  else if b0 &&& 0xC0 = 0x80 then
    if b0 = 0x80 then do
      let (v, b) ← readUint32BE b
      .ok (v, false, b)
    else if b0 = 0x81 then do
      let (v, b) ← readUint64BE b
      .ok (v, false, b)
    else .error .unexpectedLenEncoding
  else if b0 &&& 0xC0 = 0xC0 then
    .ok (b0 &&& 0x3F, true, b)
  else .error .unexpectedLenEncoding

/-- The byte-by-byte self-referencing copy loop of `decompressLZ77`
(`for matchLen > 0 { out = append(out, out[backRef]); backRef++ }`). -/
def copyOverlap (out : List Nat) (backRef : Nat) : Nat → List Nat
  | 0 => out
  | n + 1 => copyOverlap (out ++ [out.getD backRef 0]) (backRef + 1) n

/-- The match-length and offset-byte fetch of `decompressLZ77`: the
bounds check before the control byte's successors, the `matchLen == 9`
long-match extension consuming one extra length byte, and the offset
byte. -/
def lz77Fetch (matchLen0 : Nat) : List Nat → Except GoErr (Nat × Nat × List Nat)
  | [] => .error .corruptContent
  | i1 :: inp1 =>
    if matchLen0 = 9 then
      match inp1 with
      | [] => .error .corruptContent
      | i2 :: inp2 => .ok (9 + i1, i2, inp2)
    else .ok (matchLen0, i1, inp1)

/-- `decompressLZ77` of the Go source, embedded with its exact control
flow: the `ctrl < 32` literal branch, the `matchLen == 9` long-match
extension (via `lz77Fetch`), the two-step back-reference arithmetic on
Go `int`, and the slice-copy versus byte-by-byte branch. Each iteration
consumes at least one input byte, so `inp.length + 1` units of fuel
reproduce the loop. -/
def decompressLZ77Go : Nat → List Nat → Nat → Nat → List Nat → Except GoErr (List Nat)
  | 0, _, _, _, _ => .error .fuelExhausted
  | _ + 1, [], outLen, outIdx, out =>
    if outIdx ≠ outLen then .error .corruptContent else .ok out
  | fuel + 1, ctrl :: inp, outLen, outIdx, out =>
    if ctrl < 32 then
      -- literal run of ctrl + 1 bytes
      let run := ctrl + 1
      if inp.length < run then .error .corruptContent
      else if outLen < outIdx + run then .error .corruptContent
      else decompressLZ77Go fuel (inp.drop run) outLen (outIdx + run) (out ++ inp.take run)
    else
      match lz77Fetch ((ctrl >>> 5) + 2) inp with
      | .error e => .error e
      | .ok (matchLen, offByte, inp') =>
        let backRef : Int := (outIdx : Int) - (((ctrl &&& 0x1F) <<< 8 : Nat) : Int)
            - 1 - (offByte : Int)
        if outLen < outIdx + matchLen then .error .corruptContent
        else if backRef < 0 then .error .corruptContent
        else
          let br := backRef.toNat
          let out' :=
            if br + matchLen < outIdx then
              out ++ ((out.drop br).take matchLen)
            else
              copyOverlap out br matchLen
          decompressLZ77Go fuel inp' outLen (outIdx + matchLen) out'

/-- `decompressLZ77(inp, outLen)`. -/
def decompressLZ77 (inp : List Nat) (outLen : Nat) : Except GoErr (List Nat) :=
  decompressLZ77Go (inp.length + 1) inp outLen 0 []

/-- The supported snapshot version ceiling (`constants.go`: `Version`). -/
def supportedVersion : Nat := 12

/-- The CRC-64 polynomial of `buffer.go` (`poly`). -/
def crcPoly : Nat := 0xAD93D23594C935A9

/-- `bits.Reverse64`. -/
def reverse64 (n : Nat) : Nat :=
  (List.range 64).foldl (fun acc i => acc ||| (((n >>> i) &&& 1) <<< (63 - i))) 0

/-- One entry of the CRC table built by `buildCrc64Table`: the inner loop
runs for `j = 1, 2, 4, ..., 128`, flips the candidate top bit when the
corresponding bit of `i` is set, shifts, and conditionally folds in the
polynomial; the result is bit-reversed. -/
def crc64Entry (i : Nat) : Nat :=
  reverse64 ((List.range 8).foldl (fun crc k =>
    let bit := crc &&& 0x8000000000000000
    let bit := if (i % 256) &&& (1 <<< k) ≠ 0 then (if bit = 0 then 1 else 0) else bit
    let crc := (crc <<< 1) % 2 ^ 64
    if bit ≠ 0 then crc ^^^ crcPoly else crc) 0)

/-- `getCRC`: Go's table-driven reflected CRC-64 update; the pre/post
inversions of `hash/crc64` cancel against the inversions applied by
`getCRC`, leaving the plain fold `c ↦ table[(c ^ b) & 0xFF] ^ (c >> 8)`. -/
def getCRC (crc : Nat) (payload : List Nat) : Nat :=
  payload.foldl (fun c b => crc64Entry ((c ^^^ b) &&& 0xFF) ^^^ (c >>> 8)) crc

/-- Little-endian value of up to eight bytes (`binary.LittleEndian.Uint64`). -/
def le64 (bs : List Nat) : Nat :=
  bs.getD 0 0 + 256 * bs.getD 1 0 + 256 ^ 2 * bs.getD 2 0 + 256 ^ 3 * bs.getD 3 0 +
  256 ^ 4 * bs.getD 4 0 + 256 ^ 5 * bs.getD 5 0 + 256 ^ 6 * bs.getD 6 0 +
  256 ^ 7 * bs.getD 7 0

/-- `VerifyValueChecksum` of `buffer.go`: a payload shorter than the
10-byte checksum block fails with unexpected EOF; then the RDB version
(little-endian `uint16` at offset `n - 10`) must not exceed the supported
ceiling, and the little-endian CRC stored in the last 8 bytes must equal
the CRC-64 of `payload[:n-8]`. -/
def VerifyValueChecksum (payload : List Nat) : Except GoErr Unit :=
  let n := payload.length
  if n < 10 then .error .unexpectedEOF
  else
    let version := payload.getD (n - 10) 0 + 256 * payload.getD (n - 9) 0
    if version > supportedVersion then .error (.unsupportedValueVersion version)
    else
      let crc := le64 (payload.drop (n - 8))
      let expected := getCRC 0 (payload.take (n - 8))
      if crc ≠ expected then .error .invalidValueCRC
      else .ok ()

/-- Two's-complement reading of a 24-bit value (the `<<8 >>8` and
`<<8|<<16|<<24 >>8` sign-extension tricks of the two int24 branches both
compute exactly this). -/
def toInt24 (n : Nat) : Int :=
  if n % 2 ^ 24 < 2 ^ 23 then ((n % 2 ^ 24 : Nat) : Int)
  else ((n % 2 ^ 24 : Nat) : Int) - 2 ^ 24

/-- Sign extension of a 13-bit value (the `int16` `<<3 >>3` trick of the
listpack 13-bit branch). -/
def toInt13 (n : Nat) : Int :=
  if n % 2 ^ 13 < 2 ^ 12 then ((n % 2 ^ 13 : Nat) : Int)
  else ((n % 2 ^ 13 : Nat) : Int) - 2 ^ 13

/-- Go `int(x)` of a `uint64` used as a read count: the sources pass
length-decoded values to `read`/`skip`/`make` through `int`. A value at or
above `2^63` reinterprets as a negative count, on which the Go buffer
would panic; no theorem of this file exercises that region, and the
embedding clamps it to `0`. -/
def intCount (n : Nat) : Nat := (toInt64 n).toNat

/-- `valueReader.ReadString`: length prefix, then raw bytes, an
ASCII-rendered 8/16/32-bit signed integer, or an LZ77-compressed block
(`compressed_len`, `uncompressed_len`, payload) subject to the optional
`maxLz77StrLen` ceiling `mx`. -/
def readString (mx : Nat) (b : Buf) : Except GoErr (Str × Buf) := do
  let (length, encoded, b) ← readLen b
  if encoded then
    if length = 0 then do
      let (v, b) ← readUint8 b
      .ok (goItoa (toInt8 v), b)
    else if length = 1 then do
      let (v, b) ← readUint16 b
      .ok (goItoa (toInt16 v), b)
    else if length = 2 then do
      let (v, b) ← readUint32 b
      .ok (goItoa (toInt32 v), b)
    else if length = 3 then do
      let (compressedLen, _, b) ← readLen b
      let (uncompressedLen, _, b) ← readLen b
      if mx > 0 ∧ uncompressedLen > mx then .error .tooBigLz77String
      else do
        let (compressed, b) ← readBytes b (intCount compressedLen)
        let decompressed ← decompressLZ77 compressed (intCount uncompressedLen)
        .ok (decompressed, b)
    else .error .unexpectedStringEncoding
  else do
    let (data, b) ← readBytes b (intCount length)
    .ok (data, b)

/-- The back-length width table shared by the listpack reader and writer
(1 byte for `backLen ≤ 127`, then 2/3/4/5 by the thresholds of the
source). -/
def backLenWidth (backLen : Nat) : Nat :=
  if backLen ≤ 127 then 1
  else if backLen < 16383 then 2
  else if backLen < 2097151 then 3
  else if backLen < 268435455 then 4
  else 5

/-- `valueReader.readListpackEntry`. The branches reproduce the source
exactly, including the error returns that the source discards: the
int24, 12-bit-length, 32-bit-length and string-data reads answer
`("", nil)` when the underlying read fails, so a truncated buffer yields
a successful empty entry there. -/
def readListpackEntry (b : Buf) : Except GoErr (Str × Buf) := do
  let (encoding, b) ← readUint8 b
  if encoding = 255 then .error .lpUnexpectedEnd
  else if encoding &&& 0x80 = 0 then do
    -- 7-bit unsigned immediate, then the 1-byte backlen skip
    let b ← skipBytes b 1
    .ok (goItoa ((encoding &&& 0x7F : Nat) : Int), b)
  else if encoding &&& 0xE0 = 0xC0 then do
    let (lsb, b) ← readUint8 b
    let b ← skipBytes b 1
    .ok (goItoa (toInt13 (((encoding &&& 0x1F) <<< 8) ||| lsb)), b)
  else if encoding = 0xF1 then do
    let (v, b) ← readUint16 b
    let b ← skipBytes b 1
    .ok (goItoa (toInt16 v), b)
  else if encoding = 0xF2 then
    match readBytes b 3 with
    | .error _ => .ok ([], b)  -- source returns ("", nil) on this failure
    | .ok (raw, b) => do
      let b ← skipBytes b 1
      .ok (goItoa (toInt24 (raw.getD 0 0 + 256 * raw.getD 1 0 + 256 ^ 2 * raw.getD 2 0)), b)
  else if encoding = 0xF3 then do
    let (v, b) ← readUint32 b
    let b ← skipBytes b 1
    .ok (goItoa (toInt32 v), b)
  else if encoding = 0xF4 then do
    let (v, b) ← readUint64 b
    let b ← skipBytes b 1
    .ok (goItoa (toInt64 v), b)
  else do
    let step : Except GoErr (Option (Nat × Nat × Buf)) :=
      if encoding &&& 0xC0 = 0x80 then
        .ok (some (encoding &&& 0x3F, 1 + (encoding &&& 0x3F), b))
      else if encoding &&& 0xF0 = 0xE0 then
        match readUint8 b with
        | .error _ => .ok none  -- source returns ("", nil) on this failure
        | .ok (lsb, b) =>
          .ok (some (((encoding &&& 0x0F) <<< 8) ||| lsb,
                     2 + (((encoding &&& 0x0F) <<< 8) ||| lsb), b))
      else if encoding = 0xF0 then
        match readUint32 b with
        | .error _ => .ok none  -- source returns ("", nil) on this failure
        | .ok (v, b) => .ok (some (intCount v, 5 + intCount v, b))
      else .error .unexpectedListpackEncoding
    match step with
    | .error e => .error e
    | .ok none => .ok ([], b)
    | .ok (some (valueLen, backLen, b)) =>
      match readBytes b valueLen with
      | .error _ => .ok ([], b)  -- source returns ("", nil) on this failure
      | .ok (data, b) => do
        let b ← skipBytes b (backLenWidth backLen)
        .ok (data, b)

/-- `valueReader.readZiplistEntry`. As in the source, most of the
fixed-width reads of this function discard their error and answer
`("", nil)` when the buffer is exhausted. -/
def readZiplistEntry (b : Buf) : Except GoErr (Str × Buf) := do
  let (prevLen0, b) ← readUint8 b
  let b ← (if prevLen0 = 254 then skipBytes b 4
           else if prevLen0 = 255 then .error .zlUnexpectedEnd
           else .ok b)
  let (encoding, b) ← readUint8 b
  let step : Except GoErr (Option (Nat × Buf)) :=
    if encoding &&& 0xC0 = 0x00 then .ok (some (encoding &&& 0x3F, b))
    else if encoding &&& 0xC0 = 0x40 then
      match readUint8 b with
      | .error _ => .ok none  -- source returns ("", nil) on this failure
      | .ok (lsb, b) => .ok (some (((encoding &&& 0x3F) <<< 8) ||| lsb, b))
    else if encoding &&& 0xC0 = 0x80 then
      match readUint32BE b with
      | .error _ => .ok none  -- source returns ("", nil) on this failure
      | .ok (v, b) => .ok (some (intCount v, b))
    else .ok (some (0, b)) -- unused marker; integer encodings handled below
  if encoding &&& 0xC0 ≠ 0xC0 then
    match step with
    | .error e => .error e
    | .ok none => .ok ([], b)
    | .ok (some (length, b)) =>
      match readBytes b length with
      | .error _ => .ok ([], b)  -- source returns ("", nil) on this failure
      | .ok (data, b) => .ok (data, b)
  else
    if encoding = 0xFE then
      match readUint8 b with
      | .error _ => .ok ([], b)  -- source returns ("", nil) on this failure
      | .ok (v, b) => .ok (goItoa (toInt8 v), b)
    else if encoding = 0xC0 then
      match readUint16 b with
      | .error _ => .ok ([], b)  -- source returns ("", nil) on this failure
      | .ok (v, b) => .ok (goItoa (toInt16 v), b)
    else if encoding = 0xF0 then
      match readBytes b 3 with
      | .error _ => .ok ([], b)  -- source returns ("", nil) on this failure
      | .ok (raw, b) =>
        .ok (goItoa (toInt24 (raw.getD 0 0 + 256 * raw.getD 1 0 + 256 ^ 2 * raw.getD 2 0)), b)
    else if encoding = 0xD0 then
      match readUint32 b with
      | .error _ => .ok ([], b)  -- source returns ("", nil) on this failure
      | .ok (v, b) => .ok (goItoa (toInt32 v), b)
    else if encoding = 0xE0 then
      match readUint64 b with
      | .error _ => .ok ([], b)  -- source returns ("", nil) on this failure
      | .ok (v, b) => .ok (goItoa (toInt64 v), b)
    else
      -- 1111xxxx immediate; `encoding - 0xF1` in wrapping uint8 arithmetic
      .ok (goItoa (((encoding + 256 - 0xF1) % 256 : Nat) : Int), b)

/-- A per-element handler callback: Go callbacks both mutate captured
state and return an error; the embedding keeps both effects. -/
abbrev Cb1 (σ : Type) := σ → Str → σ × Option GoErr

/-- A field/value handler callback. -/
abbrev Cb2 (σ : Type) := σ → Str → Str → σ × Option GoErr

/-- A member/score handler callback; the score is carried as its IEEE-754
bit pattern (`math.Float64frombits`/`Float64bits` are bitwise inverses,
so the embedding works on the bits). -/
abbrev CbZ (σ : Type) := σ → Str → Nat → σ × Option GoErr

/-- A field/value/expiry handler callback (expiry in Unix milliseconds,
`0` for the zero `time.Time`). -/
abbrev CbH (σ : Type) := σ → Str → Str → Int → σ × Option GoErr

/-- IEEE-754 bit patterns of `math.Inf(-1)`, `math.Inf(1)`, `math.NaN()`. -/
def negInfBits : Nat := 0xFFF0000000000000
def posInfBits : Nat := 0x7FF0000000000000
def nanBits : Nat := 0x7FF8000000000000

/-- Loop of `valueReader.ReadList`. -/
def readListLoop (mx : Nat) (cb : Cb1 σ) : Nat → Buf → σ → Except GoErr (Buf × σ)
  | 0, b, s => .ok (b, s)
  | n + 1, b, s => do
    let (elem, b) ← readString mx b
    match cb s elem with
    | (_, some e) => .error e
    | (s, none) => readListLoop mx cb n b s

/-- `valueReader.ReadList`: a length-encoded count followed by that many
strings; returns the declared count. -/
def readList (mx : Nat) (cb : Cb1 σ) (b : Buf) (s : σ) : Except GoErr (Nat × Buf × σ) := do
  let (length, _, b) ← readLen b
  let (b, s) ← readListLoop mx cb (loopCount length) b s
  .ok (length, b, s)

/-- `valueReader.ReadSet`: same wire shape as a list, no returned count. -/
def readSet (mx : Nat) (cb : Cb1 σ) (b : Buf) (s : σ) : Except GoErr (Buf × σ) := do
  let (length, _, b) ← readLen b
  readListLoop mx cb (loopCount length) b s

/-- Loop of `valueReader.ReadZset` (ASCII-encoded scores; `255`/`254`/`253`
first bytes denote `-Inf`/`+Inf`/`NaN`). -/
def readZsetLoop (mx : Nat) (cb : CbZ σ) : Nat → Buf → σ → Except GoErr (Buf × σ)
  | 0, b, s => .ok (b, s)
  | n + 1, b, s => do
    let (elem, b) ← readString mx b
    let (scoreLen, b) ← readUint8 b
    let (score, b) ←
      (if scoreLen = 255 then .ok (negInfBits, b)
       else if scoreLen = 254 then .ok (posInfBits, b)
       else if scoreLen = 253 then .ok (nanBits, b)
       else do
         let (data, b) ← readBytes b scoreLen
         let bits ← goParseFloatBits data
         .ok (bits, b) : Except GoErr (Nat × Buf))
    match cb s elem score with
    | (_, some e) => .error e
    | (s, none) => readZsetLoop mx cb n b s

/-- `valueReader.ReadZset`. -/
def readZset (mx : Nat) (cb : CbZ σ) (b : Buf) (s : σ) : Except GoErr (Nat × Buf × σ) := do
  let (length, _, b) ← readLen b
  let (b, s) ← readZsetLoop mx cb (loopCount length) b s
  .ok (length, b, s)

/-- Loop of `valueReader.ReadHash`. -/
def readHashLoop (mx : Nat) (cb : Cb2 σ) : Nat → Buf → σ → Except GoErr (Buf × σ)
  | 0, b, s => .ok (b, s)
  | n + 1, b, s => do
    let (field, b) ← readString mx b
    let (value, b) ← readString mx b
    match cb s field value with
    | (_, some e) => .error e
    | (s, none) => readHashLoop mx cb n b s

/-- `valueReader.ReadHash`. -/
def readHash (mx : Nat) (cb : Cb2 σ) (b : Buf) (s : σ) : Except GoErr (Buf × σ) := do
  let (length, _, b) ← readLen b
  readHashLoop mx cb (loopCount length) b s

/-- Loop of `valueReader.ReadZset2` (binary IEEE-754 scores). -/
def readZset2Loop (mx : Nat) (cb : CbZ σ) : Nat → Buf → σ → Except GoErr (Buf × σ)
  | 0, b, s => .ok (b, s)
  | n + 1, b, s => do
    let (elem, b) ← readString mx b
    let (bits, b) ← readUint64 b
    match cb s elem bits with
    | (_, some e) => .error e
    | (s, none) => readZset2Loop mx cb n b s

/-- `valueReader.ReadZset2`. -/
def readZset2 (mx : Nat) (cb : CbZ σ) (b : Buf) (s : σ) : Except GoErr (Nat × Buf × σ) := do
  let (length, _, b) ← readLen b
  let (b, s) ← readZset2Loop mx cb (loopCount length) b s
  .ok (length, b, s)

/-- Result of reading one zipmap entry: the terminator, or a field/value
pair. -/
inductive ZipmapStep where
  | ended (b : Buf)
  | entry (field value : Str) (b : Buf)

/-- One iteration of the `ReadHashZipmap` loop: `<len><field><len><free>
<value><free-bytes>`, 1-byte or 1+4-byte lengths, `255` terminating. The
`unbounded` flag tells whether a terminator is legal here. -/
def readZipmapStep (unbounded : Bool) (b : Buf) : Except GoErr ZipmapStep := do
  let (len0, b) ← readUint8 b
  if len0 = 255 then
    if unbounded then .ok (.ended b) else .error .zmUnexpectedEnd
  else do
    let (fieldLen, b) ←
      (if len0 < 254 then .ok (len0, b)
       else do
         let (v, b) ← readUint32 b
         .ok (v, b) : Except GoErr (Nat × Buf))
    let (fieldData, b) ← readBytes b (intCount fieldLen)
    let (len1, b) ← readUint8 b
    if len1 = 255 then .error .zmUnexpectedEnd
    else do
      let (valueLen, b) ←
        (if len1 < 254 then .ok (len1, b)
         else do
           let (v, b) ← readUint32 b
           .ok (v, b) : Except GoErr (Nat × Buf))
      let (freeLen, b) ← readUint8 b
      let (valueData, b) ← readBytes b (intCount valueLen)
      let b ← skipBytes b freeLen
      .ok (.entry fieldData valueData b)

/-- Bounded (`zmlen < 254`) zipmap loop. -/
def readZipmapBounded (cb : Cb2 σ) : Nat → Buf → σ → Except GoErr (Buf × σ)
  | 0, b, s => .ok (b, s)
  | n + 1, b, s => do
    match ← readZipmapStep false b with
    | .ended _ => .error .zmUnexpectedEnd  -- unreachable: step errors instead
    | .entry f v b =>
      match cb s f v with
      | (_, some e) => .error e
      | (s, none) => readZipmapBounded cb n b s

/-- Unbounded zipmap loop (terminator-driven, fuelled). -/
def readZipmapUnbounded (cb : Cb2 σ) : Nat → Buf → σ → Except GoErr (Buf × σ)
  | 0, _, _ => .error .fuelExhausted
  | fuel + 1, b, s => do
    match ← readZipmapStep true b with
    | .ended b => .ok (b, s)
    | .entry f v b =>
      match cb s f v with
      | (_, some e) => .error e
      | (s, none) => readZipmapUnbounded cb fuel b s

/-- `valueReader.ReadHashZipmap`: the zipmap lives in a host string; a
`zmlen < 254` gives the entry count (a terminator must still follow),
otherwise the map is terminator-delimited. -/
def readHashZipmap (mx : Nat) (cb : Cb2 σ) (b : Buf) (s : σ) : Except GoErr (Buf × σ) := do
  let (zipmap, b) ← readString mx b
  let inner := Buf.ofBytes zipmap
  let (zmlen, inner) ← readUint8 inner
  if zmlen < 254 then do
    let (inner, s) ← readZipmapBounded cb zmlen inner s
    let (zmend, _) ← readUint8 inner
    if zmend ≠ 255 then .error .zmUnexpectedEnd else .ok (b, s)
  else do
    let (_, s) ← readZipmapUnbounded cb (zipmap.length + 1) inner s
    .ok (b, s)

/-- Bounded ziplist element loop (`zllen < 65535`), one element per
iteration. -/
def readListZiplistBounded (cb : Cb1 σ) : Nat → Buf → σ → Except GoErr (Buf × σ)
  | 0, b, s => .ok (b, s)
  | n + 1, b, s => do
    let (elem, b) ← readZiplistEntry b
    match cb s elem with
    | (_, some e) => .error e
    | (s, none) => readListZiplistBounded cb n b s

/-- Unbounded ziplist element loop: the terminator surfaces as
`errZLUnexpectedEnd` from the entry reader and ends the loop, returning
the number of elements read. -/
def readListZiplistUnbounded (cb : Cb1 σ) : Nat → Nat → Buf → σ → Except GoErr (Nat × Buf × σ)
  | 0, _, _, _ => .error .fuelExhausted
  | fuel + 1, i, b, s =>
    match readZiplistEntry b with
    | .error .zlUnexpectedEnd => .ok (i, b, s)
    | .error e => .error e
    | .ok (elem, b) =>
      match cb s elem with
      | (_, some e) => .error e
      | (s, none) => readListZiplistUnbounded cb fuel (i + 1) b s

/-- `valueReader.ReadListZiplist`: skip `zlbytes`/`zltail`, read `zllen`,
then bounded or terminator-driven element traversal; returns the element
count. -/
def readListZiplist (mx : Nat) (cb : Cb1 σ) (b : Buf) (s : σ) :
    Except GoErr (Nat × Buf × σ) := do
  let (ziplist, b) ← readString mx b
  let inner := Buf.ofBytes ziplist
  let inner ← skipBytes inner 8
  let (zllen, inner) ← readUint16 inner
  if zllen = 65535 then do
    let (i, _, s) ← readListZiplistUnbounded cb (ziplist.length + 1) 0 inner s
    .ok (i, b, s)
  else do
    let (inner, s) ← readListZiplistBounded cb zllen inner s
    let (zlend, _) ← readUint8 inner
    if zlend ≠ 255 then .error .zlUnexpectedEnd else .ok (zllen, b, s)

/-- Bounded ziplist pair loop of `ReadZsetZiplist` (`i += 2`), parsing the
score entry as a float. -/
def readZsetZiplistBounded (cb : CbZ σ) : Nat → Buf → σ → Except GoErr (Buf × σ)
  | 0, b, s => .ok (b, s)
  | n + 1, b, s => do
    let (elem, b) ← readZiplistEntry b
    let (score0, b) ← readZiplistEntry b
    let bits ← goParseFloatBits score0
    match cb s elem bits with
    | (_, some e) => .error e
    | (s, none) => readZsetZiplistBounded cb n b s

/-- Unbounded ziplist pair loop of `ReadZsetZiplist`: only the first
entry of a pair may gracefully hit the terminator. -/
def readZsetZiplistUnbounded (cb : CbZ σ) : Nat → Nat → Buf → σ → Except GoErr (Nat × Buf × σ)
  | 0, _, _, _ => .error .fuelExhausted
  | fuel + 1, pairs, b, s =>
    match readZiplistEntry b with
    | .error .zlUnexpectedEnd => .ok (pairs, b, s)
    | .error e => .error e
    | .ok (elem, b) => do
      let (score0, b) ← readZiplistEntry b
      let bits ← goParseFloatBits score0
      match cb s elem bits with
      | (_, some e) => .error e
      | (s, none) => readZsetZiplistUnbounded cb fuel (pairs + 1) b s

/-- `valueReader.ReadZsetZiplist`; returns the pair count (`zllen / 2`
when bounded). -/
def readZsetZiplist (mx : Nat) (cb : CbZ σ) (b : Buf) (s : σ) :
    Except GoErr (Nat × Buf × σ) := do
  let (ziplist, b) ← readString mx b
  let inner := Buf.ofBytes ziplist
  let inner ← skipBytes inner 8
  let (zllen, inner) ← readUint16 inner
  if zllen = 65535 then do
    let (pairs, _, s) ← readZsetZiplistUnbounded cb (ziplist.length + 1) 0 inner s
    .ok (pairs, b, s)
  else do
    let (inner, s) ← readZsetZiplistBounded cb ((zllen + 1) / 2) inner s
    let (zlend, _) ← readUint8 inner
    if zlend ≠ 255 then .error .zlUnexpectedEnd else .ok (zllen / 2, b, s)

/-- Bounded ziplist pair loop of `ReadHashZiplist`. -/
def readHashZiplistBounded (cb : Cb2 σ) : Nat → Buf → σ → Except GoErr (Buf × σ)
  | 0, b, s => .ok (b, s)
  | n + 1, b, s => do
    let (field, b) ← readZiplistEntry b
    let (value, b) ← readZiplistEntry b
    match cb s field value with
    | (_, some e) => .error e
    | (s, none) => readHashZiplistBounded cb n b s

/-- Unbounded ziplist pair loop of `ReadHashZiplist`. -/
def readHashZiplistUnbounded (cb : Cb2 σ) : Nat → Buf → σ → Except GoErr (Buf × σ)
  | 0, _, _ => .error .fuelExhausted
  | fuel + 1, b, s =>
    match readZiplistEntry b with
    | .error .zlUnexpectedEnd => .ok (b, s)
    | .error e => .error e
    | .ok (field, b) => do
      let (value, b) ← readZiplistEntry b
      match cb s field value with
      | (_, some e) => .error e
      | (s, none) => readHashZiplistUnbounded cb fuel b s

/-- `valueReader.ReadHashZiplist`. -/
def readHashZiplist (mx : Nat) (cb : Cb2 σ) (b : Buf) (s : σ) : Except GoErr (Buf × σ) := do
  let (ziplist, b) ← readString mx b
  let inner := Buf.ofBytes ziplist
  let inner ← skipBytes inner 8
  let (zllen, inner) ← readUint16 inner
  if zllen = 65535 then do
    let (_, s) ← readHashZiplistUnbounded cb (ziplist.length + 1) inner s
    .ok (b, s)
  else do
    let (inner, s) ← readHashZiplistBounded cb ((zllen + 1) / 2) inner s
    let (zlend, _) ← readUint8 inner
    if zlend ≠ 255 then .error .zlUnexpectedEnd else .ok (b, s)

/-- Loop of `ReadSetIntset`: fixed-width little-endian signed elements,
rendered in ASCII decimal. -/
def readIntsetLoop (cb : Cb1 σ) (encoding : Nat) : Nat → Buf → σ → Except GoErr (Buf × σ)
  | 0, b, s => .ok (b, s)
  | n + 1, b, s => do
    let (elem, b) ←
      (if encoding = 2 then do
         let (v, b) ← readUint16 b
         .ok (goItoa (toInt16 v), b)
       else if encoding = 4 then do
         let (v, b) ← readUint32 b
         .ok (goItoa (toInt32 v), b)
       else if encoding = 8 then do
         let (v, b) ← readUint64 b
         .ok (goItoa (toInt64 v), b)
       else .error .unexpectedIntsetEncoding : Except GoErr (Str × Buf))
    match cb s elem with
    | (_, some e) => .error e
    | (s, none) => readIntsetLoop cb encoding n b s

/-- `valueReader.ReadSetIntset`. -/
def readSetIntset (mx : Nat) (cb : Cb1 σ) (b : Buf) (s : σ) : Except GoErr (Buf × σ) := do
  let (intset, b) ← readString mx b
  let inner := Buf.ofBytes intset
  let (encoding, inner) ← readUint32 inner
  let (length, inner) ← readUint32 inner
  let (_, s) ← readIntsetLoop cb encoding (intCount length) inner s
  .ok (b, s)

/-- Bounded listpack element loop of `readListpack`. -/
def readListpackBounded (cb : Cb1 σ) : Nat → Buf → σ → Except GoErr (Buf × σ)
  | 0, b, s => .ok (b, s)
  | n + 1, b, s => do
    let (entry, b) ← readListpackEntry b
    match cb s entry with
    | (_, some e) => .error e
    | (s, none) => readListpackBounded cb n b s

/-- Unbounded listpack element loop of `readListpack`. -/
def readListpackUnbounded (cb : Cb1 σ) : Nat → Nat → Buf → σ → Except GoErr (Nat × Buf × σ)
  | 0, _, _, _ => .error .fuelExhausted
  | fuel + 1, i, b, s =>
    match readListpackEntry b with
    | .error .lpUnexpectedEnd => .ok (i, b, s)
    | .error e => .error e
    | .ok (entry, b) =>
      match cb s entry with
      | (_, some e) => .error e
      | (s, none) => readListpackUnbounded cb fuel (i + 1) b s

/-- `valueReader.readListpack` over an already-extracted host string:
skip `lpbytes`, read `lplen`, then bounded or terminator-driven
traversal; returns the element count. -/
def readListpack (listpack : Str) (cb : Cb1 σ) (s : σ) : Except GoErr (Nat × σ) := do
  let inner := Buf.ofBytes listpack
  let inner ← skipBytes inner 4
  let (lplen, inner) ← readUint16 inner
  if lplen = 65535 then do
    let (i, _, s) ← readListpackUnbounded cb (listpack.length + 1) 0 inner s
    .ok (i, s)
  else do
    let (inner, s) ← readListpackBounded cb lplen inner s
    let (lpend, _) ← readUint8 inner
    if lpend ≠ 255 then .error .lpUnexpectedEnd else .ok (lplen, s)

/-- Bounded listpack pair loop of `ReadHashListpack`. -/
def readHashListpackBounded (cb : Cb2 σ) : Nat → Buf → σ → Except GoErr (Buf × σ)
  | 0, b, s => .ok (b, s)
  | n + 1, b, s => do
    let (field, b) ← readListpackEntry b
    let (value, b) ← readListpackEntry b
    match cb s field value with
    | (_, some e) => .error e
    | (s, none) => readHashListpackBounded cb n b s

/-- Unbounded listpack pair loop of `ReadHashListpack`. -/
def readHashListpackUnbounded (cb : Cb2 σ) : Nat → Buf → σ → Except GoErr (Buf × σ)
  | 0, _, _ => .error .fuelExhausted
  | fuel + 1, b, s =>
    match readListpackEntry b with
    | .error .lpUnexpectedEnd => .ok (b, s)
    | .error e => .error e
    | .ok (field, b) => do
      let (value, b) ← readListpackEntry b
      match cb s field value with
      | (_, some e) => .error e
      | (s, none) => readHashListpackUnbounded cb fuel b s

/-- `valueReader.ReadHashListpack`. -/
def readHashListpack (mx : Nat) (cb : Cb2 σ) (b : Buf) (s : σ) : Except GoErr (Buf × σ) := do
  let (listpack, b) ← readString mx b
  let inner := Buf.ofBytes listpack
  let inner ← skipBytes inner 4
  let (lplen, inner) ← readUint16 inner
  if lplen = 65535 then do
    let (_, s) ← readHashListpackUnbounded cb (listpack.length + 1) inner s
    .ok (b, s)
  else do
    let (inner, s) ← readHashListpackBounded cb ((lplen + 1) / 2) inner s
    let (lpend, _) ← readUint8 inner
    if lpend ≠ 255 then .error .lpUnexpectedEnd else .ok (b, s)

/-- Bounded listpack pair loop of `ReadZsetListpack`. -/
def readZsetListpackBounded (cb : CbZ σ) : Nat → Buf → σ → Except GoErr (Buf × σ)
  | 0, b, s => .ok (b, s)
  | n + 1, b, s => do
    let (elem, b) ← readListpackEntry b
    let (score0, b) ← readListpackEntry b
    let bits ← goParseFloatBits score0
    match cb s elem bits with
    | (_, some e) => .error e
    | (s, none) => readZsetListpackBounded cb n b s

/-- Unbounded listpack pair loop of `ReadZsetListpack`. -/
def readZsetListpackUnbounded (cb : CbZ σ) : Nat → Nat → Buf → σ → Except GoErr (Nat × Buf × σ)
  | 0, _, _, _ => .error .fuelExhausted
  | fuel + 1, pairs, b, s =>
    match readListpackEntry b with
    | .error .lpUnexpectedEnd => .ok (pairs, b, s)
    | .error e => .error e
    | .ok (elem, b) => do
      let (score0, b) ← readListpackEntry b
      let bits ← goParseFloatBits score0
      match cb s elem bits with
      | (_, some e) => .error e
      | (s, none) => readZsetListpackUnbounded cb fuel (pairs + 1) b s

/-- `valueReader.ReadZsetListpack`; returns the pair count. -/
def readZsetListpack (mx : Nat) (cb : CbZ σ) (b : Buf) (s : σ) :
    Except GoErr (Nat × Buf × σ) := do
  let (listpack, b) ← readString mx b
  let inner := Buf.ofBytes listpack
  let inner ← skipBytes inner 4
  let (lplen, inner) ← readUint16 inner
  if lplen = 65535 then do
    let (pairs, _, s) ← readZsetListpackUnbounded cb (listpack.length + 1) 0 inner s
    .ok (pairs, b, s)
  else do
    let (inner, s) ← readZsetListpackBounded cb ((lplen + 1) / 2) inner s
    let (lpend, _) ← readUint8 inner
    if lpend ≠ 255 then .error .lpUnexpectedEnd else .ok (lplen / 2, b, s)

/-- Bounded listpack triplet loop of `ReadHashListpackEx` (`i += 3`):
field, value, then an ASCII expiry parsed with `strconv.ParseInt`. -/
def readHashListpackExBounded (cb : CbH σ) : Nat → Buf → σ → Except GoErr (Buf × σ)
  | 0, b, s => .ok (b, s)
  | n + 1, b, s => do
    let (field, b) ← readListpackEntry b
    let (value, b) ← readListpackEntry b
    let (expStr, b) ← readListpackEntry b
    let expVal ← goAtoi expStr
    match cb s field value expVal with
    | (_, some e) => .error e
    | (s, none) => readHashListpackExBounded cb n b s

/-- Unbounded listpack triplet loop of `ReadHashListpackEx`. -/
def readHashListpackExUnbounded (cb : CbH σ) : Nat → Buf → σ → Except GoErr (Buf × σ)
  | 0, _, _ => .error .fuelExhausted
  | fuel + 1, b, s =>
    match readListpackEntry b with
    | .error .lpUnexpectedEnd => .ok (b, s)
    | .error e => .error e
    | .ok (field, b) => do
      let (value, b) ← readListpackEntry b
      let (expStr, b) ← readListpackEntry b
      let expVal ← goAtoi expStr
      match cb s field value expVal with
      | (_, some e) => .error e
      | (s, none) => readHashListpackExUnbounded cb fuel b s

/-- `valueReader.ReadHashListpackEx`: a leading `minExpire` `uint64`
(read and discarded), then a listpack of field/value/TTL triplets. -/
def readHashListpackEx (mx : Nat) (cb : CbH σ) (b : Buf) (s : σ) :
    Except GoErr (Buf × σ) := do
  let (_, b) ← readUint64 b
  let (listpack, b) ← readString mx b
  let inner := Buf.ofBytes listpack
  let inner ← skipBytes inner 4
  let (lplen, inner) ← readUint16 inner
  if lplen = 65535 then do
    let (_, s) ← readHashListpackExUnbounded cb (listpack.length + 1) inner s
    .ok (b, s)
  else do
    let (inner, s) ← readHashListpackExBounded cb ((lplen + 2) / 3) inner s
    let (lpend, _) ← readUint8 inner
    if lpend ≠ 255 then .error .lpUnexpectedEnd else .ok (b, s)

/-- Loop of `ReadHashMetadata`: `<ttl><field><value>` triplets with a
length-encoded TTL relative to the leading minimum expiration timestamp;
a zero TTL yields the zero time. -/
def readHashMetadataLoop (mx : Nat) (cb : CbH σ) (minExp : Nat) :
    Nat → Buf → σ → Except GoErr (Buf × σ)
  | 0, b, s => .ok (b, s)
  | n + 1, b, s => do
    let (expVal, _, b) ← readLen b
    let exp : Int := if expVal > 0 then toInt64 ((minExp + expVal) % 2 ^ 64) else 0
    let (field, b) ← readString mx b
    let (value, b) ← readString mx b
    match cb s field value exp with
    | (_, some e) => .error e
    | (s, none) => readHashMetadataLoop mx cb minExp n b s

/-- `valueReader.ReadHashMetadata`. -/
def readHashMetadata (mx : Nat) (cb : CbH σ) (b : Buf) (s : σ) : Except GoErr (Buf × σ) := do
  let (minExp, b) ← readUint64 b
  let (length, _, b) ← readLen b
  readHashMetadataLoop mx cb minExp (loopCount length) b s

/-- Loop of `ReadListQuicklist`: a sequence of ziplists, elements
concatenated. -/
def readListQuicklistLoop (mx : Nat) (cb : Cb1 σ) :
    Nat → Nat → Buf → σ → Except GoErr (Nat × Buf × σ)
  | 0, total, b, s => .ok (total, b, s)
  | n + 1, total, b, s => do
    let (read, b, s) ← readListZiplist mx cb b s
    readListQuicklistLoop mx cb n (total + read) b s

/-- `valueReader.ReadListQuicklist`. -/
def readListQuicklist (mx : Nat) (cb : Cb1 σ) (b : Buf) (s : σ) :
    Except GoErr (Nat × Buf × σ) := do
  let (length, _, b) ← readLen b
  readListQuicklistLoop mx cb (loopCount length) 0 b s

/-- Loop of `ReadListQuicklist2`: each node is a plain string
(container 1) or an inline listpack (container 2). -/
def readListQuicklist2Loop (mx : Nat) (cb : Cb1 σ) :
    Nat → Nat → Buf → σ → Except GoErr (Nat × Buf × σ)
  | 0, total, b, s => .ok (total, b, s)
  | n + 1, total, b, s => do
    let (container, _, b) ← readLen b
    let (data, b) ← readString mx b
    if container = 1 then
      match cb s data with
      | (_, some e) => .error e
      | (s, none) => readListQuicklist2Loop mx cb n (total + 1) b s
    else if container = 2 then do
      let (read, s) ← readListpack data cb s
      readListQuicklist2Loop mx cb n (total + read) b s
    else .error .unexpectedQuicklist2Container

/-- `valueReader.ReadListQuicklist2`. -/
def readListQuicklist2 (mx : Nat) (cb : Cb1 σ) (b : Buf) (s : σ) :
    Except GoErr (Nat × Buf × σ) := do
  let (length, _, b) ← readLen b
  readListQuicklist2Loop mx cb (loopCount length) 0 b s

/-- `valueReader.ReadSetListpack`. -/
def readSetListpack (mx : Nat) (cb : Cb1 σ) (b : Buf) (s : σ) : Except GoErr (Buf × σ) := do
  let (listpack, b) ← readString mx b
  let (_, s) ← readListpack listpack cb s
  .ok (b, s)

/-- `StreamID` (`stream_reader.go`). -/
structure StreamID where
  millis : Nat
  seq : Nat
  deriving DecidableEq, Repr

/-- `StreamEntry`. A `none` value embeds a nil Go slice (distinct from an
empty one); entries delivered by the decoder always carry `some`. -/
structure StreamEntry where
  id : StreamID
  value : Option (List Str)
  deriving DecidableEq, Repr

/-- `StreamPendingEntry`. -/
structure StreamPendingEntry where
  entry : StreamEntry
  deliveryTime : Int
  deliveryCount : Nat
  deriving DecidableEq, Repr

/-- `StreamConsumer`. -/
structure StreamConsumer where
  name : Str
  seenTime : Int
  activeTime : Int
  pendingEntries : List StreamPendingEntry
  deriving DecidableEq, Repr

/-- `StreamConsumerGroup`. -/
structure StreamConsumerGroup where
  name : Str
  lastID : StreamID
  entriesRead : Int
  consumers : List StreamConsumer
  deriving DecidableEq, Repr

/-- `Stream` (the writer-side aggregate). -/
structure Stream where
  lastID : StreamID
  entries : List StreamEntry
  length : Nat
  groups : List StreamConsumerGroup
  deriving DecidableEq, Repr

/-- Association-list embedding of a Go map: lookup. -/
def alistGet [DecidableEq κ] : List (κ × ν) → κ → Option ν
  | [], _ => none
  | (k, v) :: m, k' => if k' = k then some v else alistGet m k'

/-- Association-list embedding of a Go map: insert-or-replace. Iteration
order of a Go map is unspecified; the embedding iterates in first-insertion
order, one of the admissible behaviours. -/
def alistPut [DecidableEq κ] : List (κ × ν) → κ → ν → List (κ × ν)
  | [], k, v => [(k, v)]
  | (k0, v0) :: m, k, v => if k = k0 then (k0, v) :: m else (k0, v0) :: alistPut m k v

/-- `uint64` addition (wrapping). -/
def u64add (a b : Nat) : Nat := (a + b) % 2 ^ 64

/-- `uint64` subtraction (wrapping). -/
def u64sub (a b : Nat) : Nat := (a % 2 ^ 64 + (2 ^ 64 - b % 2 ^ 64)) % 2 ^ 64

/-- Test of bit `k` of a Go `int` (`flag & streamItemFlag...`). -/
def intHasFlag (i : Int) (mask : Nat) : Bool := (toUint64 i) &&& mask ≠ 0

/-- Same-fields payload loop of `readStreamEntries`: one value per master
field name. -/
def readStreamSameFieldsLoop : List Str → List Str → Buf → Except GoErr (List Str × Buf)
  | [], fields, b => .ok (fields, b)
  | name :: names, fields, b => do
    let (value, b) ← readListpackEntry b
    readStreamSameFieldsLoop names (fields ++ [name, value]) b

/-- Fresh-fields payload loop of `readStreamEntries`: `n` field/value
pairs. -/
def readStreamFreshFieldsLoop : Nat → List Str → Buf → Except GoErr (List Str × Buf)
  | 0, fields, b => .ok (fields, b)
  | n + 1, fields, b => do
    let (field, b) ← readListpackEntry b
    let (value, b) ← readListpackEntry b
    readStreamFreshFieldsLoop n (fields ++ [field, value]) b

/-- Master field-name loop of `readStreamEntries`. -/
def readStreamMasterFieldsLoop : Nat → List Str → Buf → Except GoErr (List Str × Buf)
  | 0, names, b => .ok (names, b)
  | n + 1, names, b => do
    let (name, b) ← readListpackEntry b
    readStreamMasterFieldsLoop n (names ++ [name]) b

/-- Child-entry loop of `readStreamEntries`: flag, delta-encoded ID
(wrapping `uint64` arithmetic against the master ID), payload, and the
per-entry trailing listpack count. The entry callback's returned error is
discarded by the source (`cb(entry)`), so only its state effect is kept
here. -/
def readStreamChildLoop (cb : σ → StreamEntry → σ × Option GoErr) (masterID : StreamID)
    (masterFieldNames : List Str) : Nat → Buf → σ → Except GoErr (Buf × σ)
  | 0, b, s => .ok (b, s)
  | n + 1, b, s => do
    let (flagS, b) ← readListpackEntry b
    let flag ← goAtoi flagS
    let (millisDeltaS, b) ← readListpackEntry b
    let millisDelta ← goAtoi millisDeltaS
    let (seqDeltaS, b) ← readListpackEntry b
    let seqDelta ← goAtoi seqDeltaS
    let millis := if millisDelta < 0 then u64sub masterID.millis (toUint64 (-millisDelta))
                  else u64add masterID.millis (toUint64 millisDelta)
    let seq := if seqDelta < 0 then u64sub masterID.seq (toUint64 (-seqDelta))
               else u64add masterID.seq (toUint64 seqDelta)
    let id : StreamID := ⟨millis, seq⟩
    let isDeleted := intHasFlag flag 1
    let (fields, b) ←
      (if intHasFlag flag 2 then
         readStreamSameFieldsLoop masterFieldNames [] b
       else do
         let (numFieldsS, b) ← readListpackEntry b
         let numFields ← goAtoi numFieldsS
         readStreamFreshFieldsLoop numFields.toNat [] b : Except GoErr (List Str × Buf))
    let s := if isDeleted then s else (cb s ⟨id, some fields⟩).1
    let (_, b) ← readListpackEntry b  -- lp entry count
    readStreamChildLoop cb masterID masterFieldNames n b s

/-- Entry-pack loop of `readStreamEntries`: a 16-byte big-endian master
ID string, then the pack's listpack with its master section and
`count + deleted` children. -/
def readStreamEntriesLoop (mx : Nat) (cb : σ → StreamEntry → σ × Option GoErr) :
    Nat → Buf → σ → Except GoErr (Buf × σ)
  | 0, b, s => .ok (b, s)
  | n + 1, b, s => do
    let (masterIDS, b) ← readString mx b
    let midBuf := Buf.ofBytes masterIDS
    let (masterMillis, midBuf) ← readUint64BE midBuf
    let (masterSeq, _) ← readUint64BE midBuf
    let masterID : StreamID := ⟨masterMillis, masterSeq⟩
    let (lp, b) ← readString mx b
    let lpBuf := Buf.ofBytes lp
    let lpBuf ← skipBytes lpBuf 6
    let (countS, lpBuf) ← readListpackEntry lpBuf
    let count ← goAtoi countS
    let (deletedS, lpBuf) ← readListpackEntry lpBuf
    let deleted ← goAtoi deletedS
    let (numFieldsS, lpBuf) ← readListpackEntry lpBuf
    let numFields ← goAtoi numFieldsS
    let (masterFieldNames, lpBuf) ← readStreamMasterFieldsLoop numFields.toNat [] lpBuf
    let (_, lpBuf) ← readListpackEntry lpBuf  -- the 0 ending the master entry
    let (lpBuf, s) ← readStreamChildLoop cb masterID masterFieldNames
        (count + deleted).toNat lpBuf s
    let (lpEnd, _) ← readUint8 lpBuf
    if lpEnd ≠ 255 then .error .lpUnexpectedEnd
    else readStreamEntriesLoop mx cb n b s

/-- `valueReader.readStreamEntries`. -/
def readStreamEntries (mx : Nat) (cb : σ → StreamEntry → σ × Option GoErr) (b : Buf) (s : σ) :
    Except GoErr (Buf × σ) := do
  let (lpCount, _, b) ← readLen b
  readStreamEntriesLoop mx cb lpCount b s

/-- Global-PEL loop of `readStreamConsumerGroups`. -/
def readStreamGlobalPELLoop : Nat → List (StreamID × StreamPendingEntry) → Buf →
    Except GoErr (List (StreamID × StreamPendingEntry) × Buf)
  | 0, m, b => .ok (m, b)
  | n + 1, m, b => do
    let (millis, b) ← readUint64BE b
    let (seq, b) ← readUint64BE b
    let id : StreamID := ⟨millis, seq⟩
    let (dt0, b) ← readUint64 b
    let (dc, _, b) ← readLen b
    readStreamGlobalPELLoop n
      (alistPut m id ⟨⟨id, none⟩, toInt64 dt0, dc⟩) b

/-- Consumer-PEL loop of `readStreamConsumerGroups`: each ID is looked up
in the group's global PEL; a missing ID yields the zero
`StreamPendingEntry` (whose entry ID is `(0, 0)`), exactly as a Go map
read of an absent key does. -/
def readStreamConsumerPELLoop (pel : List (StreamID × StreamPendingEntry)) :
    Nat → List StreamPendingEntry → Buf → Except GoErr (List StreamPendingEntry × Buf)
  | 0, acc, b => .ok (acc, b)
  | n + 1, acc, b => do
    let (millis, b) ← readUint64BE b
    let (seq, b) ← readUint64BE b
    let id : StreamID := ⟨millis, seq⟩
    let pe := (alistGet pel id).getD ⟨⟨⟨0, 0⟩, none⟩, 0, 0⟩
    readStreamConsumerPELLoop pel n (acc ++ [pe]) b

/-- Consumer loop of `readStreamConsumerGroups` (`activeTime` only for
stream version 3, type tag `≥ 21`). -/
def readStreamConsumersLoop (mx : Nat) (t : Nat) (pel : List (StreamID × StreamPendingEntry)) :
    Nat → List StreamConsumer → Buf → Except GoErr (List StreamConsumer × Buf)
  | 0, acc, b => .ok (acc, b)
  | n + 1, acc, b => do
    let (name, b) ← readString mx b
    let (seen0, b) ← readUint64 b
    let (activeTime, b) ←
      (if t ≥ 21 then do
         let (a0, b) ← readUint64 b
         .ok (toInt64 a0, b)
       else .ok ((0 : Int), b) : Except GoErr (Int × Buf))
    let (pelLen, _, b) ← readLen b
    let (cpel, b) ← readStreamConsumerPELLoop pel pelLen [] b
    readStreamConsumersLoop mx t pel n
      (acc ++ [⟨name, toInt64 seen0, activeTime, cpel⟩]) b

/-- Group loop of `readStreamConsumerGroups` (`entriesRead` only for
stream versions 2 and 3, type tag `≥ 19`). The group callback's returned
error is discarded by the source (`cb(group)`), so only its state effect
is kept. -/
def readStreamGroupsLoop (mx : Nat) (t : Nat) (cb : σ → StreamConsumerGroup → σ × Option GoErr) :
    Nat → Buf → σ → Except GoErr (Buf × σ)
  | 0, b, s => .ok (b, s)
  | n + 1, b, s => do
    let (name, b) ← readString mx b
    let (lastMillis, _, b) ← readLen b
    let (lastSeq, _, b) ← readLen b
    let (entriesRead, b) ←
      (if t ≥ 19 then do
         let (er0, _, b) ← readLen b
         .ok (toInt64 er0, b)
       else .ok ((0 : Int), b) : Except GoErr (Int × Buf))
    let (pelLen, _, b) ← readLen b
    let (pel, b) ← readStreamGlobalPELLoop pelLen [] b
    let (consumerCount, _, b) ← readLen b
    let (consumers, b) ← readStreamConsumersLoop mx t pel consumerCount [] b
    let group : StreamConsumerGroup := ⟨name, ⟨lastMillis, lastSeq⟩, entriesRead, consumers⟩
    let s := (cb s group).1
    readStreamGroupsLoop mx t cb n b s

/-- `valueReader.readStreamConsumerGroups`. -/
def readStreamConsumerGroups (mx : Nat) (t : Nat)
    (cb : σ → StreamConsumerGroup → σ × Option GoErr) (b : Buf) (s : σ) :
    Except GoErr (Buf × σ) := do
  let (count, _, b) ← readLen b
  readStreamGroupsLoop mx t cb count b s

/-- The pending-entry collection closure of the first consumer-groups
pass of `readStreamListpacks0` (`pendingEntries[pe.Entry.ID] = nil`). -/
def collectPELIDs (m : List (StreamID × Option (List Str))) (group : StreamConsumerGroup) :
    List (StreamID × Option (List Str)) × Option GoErr :=
  (group.consumers.foldl (fun m c =>
     c.pendingEntries.foldl (fun m pe => alistPut m pe.entry.id none) m) m, none)

/-- The counting/filling closure of the second entries pass of
`readStreamListpacks0` (`read++`, then fill the map for referenced IDs). -/
def fillPELValues (st : Nat × List (StreamID × Option (List Str))) (entry : StreamEntry) :
    (Nat × List (StreamID × Option (List Str))) × Option GoErr :=
  let (read, m) := st
  match alistGet m entry.id with
  | some _ => ((read + 1, alistPut m entry.id entry.value), none)
  | none => ((read + 1, m), none)

/-- The final consumer-groups walk closure of `readStreamListpacks0`:
fill every per-consumer pending entry from the collected map, failing
with the corrupt-snapshot error when an ID resolves to a nil value, then
hand the group to the user callback. -/
def resolveGroup (m : List (StreamID × Option (List Str)))
    (cb : σ → StreamConsumerGroup → σ × Option GoErr)
    (s : σ) (group : StreamConsumerGroup) : σ × Option GoErr :=
  let resolved : Option (List StreamConsumer) :=
    group.consumers.foldr (fun c acc =>
      match acc, c.pendingEntries.foldr (fun pe acc2 =>
          match acc2, (alistGet m pe.entry.id).getD none with
          | some pes, some v => some ({ pe with entry := { pe.entry with value := some v } } :: pes)
          | _, _ => none) (some []) with
      | some cs, some pes => some ({ c with pendingEntries := pes } :: cs)
      | _, _ => none) (some [])
  match resolved with
  | none => (s, some .illegalStatePEL)
  | some cs => cb s { group with consumers := cs }

/-- `valueReader.readStreamListpacks0`: first entries pass streaming to
the user entry callback, metadata skip, a consumer-groups pass collecting
referenced pending IDs, a second entries pass (via a buffer view pinned
before the first) counting entries and filling the referenced values, and
the final consumer-groups walk (via a second view) resolving every
pending entry before invoking the user group callback. -/
def readStreamListpacks0 (mx : Nat) (t : Nat)
    (entryCb : σ → StreamEntry → σ × Option GoErr)
    (groupCb : σ → StreamConsumerGroup → σ × Option GoErr)
    (b : Buf) (s : σ) : Except GoErr (Nat × Buf × σ) := do
  let entriesPos := b.pos
  let (b, s) ← readStreamEntries mx entryCb b s
  let (_, _, b) ← readLen b  -- length
  let (_, _, b) ← readLen b  -- last id millis
  let (_, _, b) ← readLen b  -- last id seq
  let b ←
    (if t ≥ 19 then do
       let (_, _, b) ← readLen b  -- first id millis
       let (_, _, b) ← readLen b  -- first id seq
       let (_, _, b) ← readLen b  -- max deleted entry id millis
       let (_, _, b) ← readLen b  -- max deleted entry id seq
       let (_, _, b) ← readLen b  -- entries added
       .ok b
     else .ok b : Except GoErr Buf)
  let groupsPos := b.pos
  let (b, m) ← readStreamConsumerGroups mx t collectPELIDs b
      ([] : List (StreamID × Option (List Str)))
  let (_, st) ← readStreamEntries mx fillPELValues (b.view entriesPos) (0, m)
  let (read, m) := st
  let (_, s) ← readStreamConsumerGroups mx t (resolveGroup m groupCb) (b.view groupsPos) s
  .ok (read, b, s)

/-- The abstract value tree of the JSON module's v0 decoder (Go `any`). -/
inductive GoAny where
  | nul
  | str (s : Str)
  | num (bits : Nat)
  | intg (i : Int)
  | boo (v : Bool)
  | dict (m : List (Str × GoAny))
  | arr (l : List GoAny)

/-- Stand-in for the external `oj.JSON` renderer; no theorem of this file
depends on its output. -/
def ojJSON (_ : GoAny) : Str := [106, 115, 111, 110]

/-- The JSON module id (`constants.go`). -/
def jsonModuleID : Nat := 5035677737576115200

/-- `moduleReader.readUint64`: a UInt op-code then a length-encoded
value. -/
def moduleReadUint64 (b : Buf) : Except GoErr (Nat × Buf) := do
  let (opCode, _, b) ← readLen b
  if opCode ≠ 2 then .error .unexpectedModuleOpcode
  else do
    let (v, _, b) ← readLen b
    .ok (v, b)

/-- `moduleReader.readString`: a String op-code then an RDB string. -/
def moduleReadString (mx : Nat) (b : Buf) : Except GoErr (Str × Buf) := do
  let (opCode, _, b) ← readLen b
  if opCode ≠ 5 then .error .unexpectedModuleOpcode
  else readString mx b

/-- `moduleReader.readFloat64` (result carried as bits). -/
def moduleReadFloat64 (b : Buf) : Except GoErr (Nat × Buf) := do
  let (opCode, _, b) ← readLen b
  if opCode ≠ 4 then .error .unexpectedModuleOpcode
  else readUint64 b

mutual

/-- `moduleReader.readJSONV0`: the recursive node decoder of the JSON
module's v0 wire format. At nesting depth the values stay abstract; at
the root every case renders to a string. -/
def readJSONV0 (mx : Nat) : Nat → Bool → Buf → Except GoErr (GoAny × Buf)
  | 0, _, _ => .error .fuelExhausted
  | fuel + 1, nested, b => do
    let (node, b) ← moduleReadUint64 b
    if node = 1 then
      .ok (if nested then (.nul, b) else (.str [110, 117, 108, 108], b))
    else if node = 2 then do
      let (s, b) ← moduleReadString mx b
      .ok (.str s, b)
    else if node = 4 then do
      let (bits, b) ← moduleReadFloat64 b
      .ok (if nested then (.num bits, b) else (.str (goFormatFloat bits), b))
    else if node = 8 then do
      let (v, b) ← readUint64 b
      .ok (if nested then (.intg (toInt64 v), b) else (.str (goItoa (toInt64 v)), b))
    else if node = 16 then do
      let (v, b) ← moduleReadString mx b
      let boolean := v = [49]
      .ok (if nested then (.boo boolean, b)
           else if boolean then (.str [116, 114, 117, 101], b)
           else (.str [102, 97, 108, 115, 101], b))
    else if node = 32 then do
      let (length, b) ← moduleReadUint64 b
      let (m, b) ← readJSONV0DictLoop mx fuel (intCount length) [] b
      .ok (if nested then (.dict m, b) else (.str (ojJSON (.dict m)), b))
    else if node = 64 then do
      let (length, b) ← moduleReadUint64 b
      let (l, b) ← readJSONV0ArrLoop mx fuel (intCount length) [] b
      .ok (if nested then (.arr l, b) else (.str (ojJSON (.arr l)), b))
    else .error .unexpectedNodeType
  termination_by fuel _ _ => (fuel, 0)

/-- Dict loop of `readJSONV0` (key/value inner nodes; duplicate keys
overwrite as in a Go map). -/
def readJSONV0DictLoop (mx : Nat) (fuel : Nat) :
    Nat → List (Str × GoAny) → Buf → Except GoErr (List (Str × GoAny) × Buf)
  | 0, m, b => .ok (m, b)
  | n + 1, m, b => do
    let (innerNode, b) ← moduleReadUint64 b
    if innerNode ≠ 128 then .error .unexpectedInnerNodeType
    else do
      let (key, b) ← moduleReadString mx b
      let (value, b) ← readJSONV0 mx fuel true b
      readJSONV0DictLoop mx fuel n (alistPut m key value) b
  termination_by n _ _ => (fuel, n + 1)

/-- Array loop of `readJSONV0`. -/
def readJSONV0ArrLoop (mx : Nat) (fuel : Nat) :
    Nat → List GoAny → Buf → Except GoErr (List GoAny × Buf)
  | 0, l, b => .ok (l, b)
  | n + 1, l, b => do
    let (elem, b) ← readJSONV0 mx fuel true b
    readJSONV0ArrLoop mx fuel n (l ++ [elem]) b
  termination_by n _ _ => (fuel, n + 1)

end

/-- `moduleReader.Skip`: obey the op-code loop until EOF, skipping
payloads. -/
def moduleSkip (mx : Nat) : Nat → Buf → Except GoErr Buf
  | 0, _ => .error .fuelExhausted
  | fuel + 1, b => do
    let (opcode, _, b) ← readLen b
    if opcode = 0 then .ok b
    else do
      let b ←
        (if opcode = 1 ∨ opcode = 2 then do
           let (_, _, b) ← readLen b
           .ok b
         else if opcode = 3 then skipBytes b 4
         else if opcode = 4 then skipBytes b 8
         else if opcode = 5 then do
           let (_, b) ← readString mx b
           .ok b
         else .error .unexpectedModuleOpcode : Except GoErr Buf)
      moduleSkip mx fuel b

/-- `moduleReader.readEOF`. -/
def moduleReadEOF (b : Buf) : Except GoErr Buf := do
  let (opCode, _, b) ← readLen b
  if opCode ≠ 0 then .error .moduleNotEOF else .ok b

/-- `moduleReader.readJSON` then `readEOF` (`moduleReader.ReadJSON`):
version 0 is the recursive node format (the root must render to a
string), version 3 a single serialised JSON string. -/
def moduleReadJSON (mx : Nat) (version : Nat) (b : Buf) : Except GoErr (Str × Buf) := do
  let (value, b) ←
    (if version = 0 then do
       let (v, b) ← readJSONV0 mx (b.data.length + 1 - b.pos) false b
       match v with
       | .str s => .ok (s, b)
       | _ => .error .unableToReadJSONModule
     else if version = 3 then moduleReadString mx b
     else .error .unexpectedJSONModuleVersion : Except GoErr (Str × Buf))
  let b ← moduleReadEOF b
  .ok (value, b)

/-- `valueReader.ReadModule2`: module id (low 10 bits the version), JSON
dispatch, and the skip-or-fail path for unknown modules. The marker is
`1` for the JSON module and `0` otherwise. -/
def readModule2 (mx : Nat) (skipUnsupported : Bool) (b : Buf) :
    Except GoErr (Str × Nat × Buf) := do
  let (id, _, b) ← readLen b
  let version := id &&& 0x3FF
  if id &&& 0xFFFFFFFFFFFFFC00 = jsonModuleID then do
    let (value, b) ← moduleReadJSON mx version b
    .ok (value, 1, b)
  else if skipUnsupported then do
    let b ← moduleSkip mx (b.data.length + 1 - b.pos) b
    .ok ([], 0, b)
  else .error .unsupportedModule

/-- The handler interface of `handler.go`, with callback state threaded
explicitly. The `...Handler` acquisition methods may mutate state and
return the per-entry closure, mirroring the Go closures (which capture
key-dependent checks at acquisition time); the `Handle...Ending` methods
return no error in the source and none here. -/
structure Handler (σ : Type) where
  allowPartialRead : Bool
  handleString : σ → Str → Str → σ × Option GoErr
  listEntryHandler : σ → Str → σ × Cb1 σ
  handleListEnding : σ → Str → Nat → σ
  setEntryHandler : σ → Str → σ × Cb1 σ
  zsetEntryHandler : σ → Str → σ × CbZ σ
  handleZsetEnding : σ → Str → Nat → σ
  hashEntryHandler : σ → Str → σ × Cb2 σ
  hashWithExpEntryHandler : σ → Str → σ × CbH σ
  handleModule : σ → Str → Str → Nat → σ × Option GoErr
  streamEntryHandler : σ → Str → σ × (σ → StreamEntry → σ × Option GoErr)
  streamGroupHandler : σ → Str → σ × (σ → StreamConsumerGroup → σ × Option GoErr)
  handleStreamEnding : σ → Str → Nat → σ
  handleExpireTime : σ → Str → Int → σ × Option GoErr

/-- `valueReader.readObject`: the record-type dispatch of `reader.go`.
Unlisted tags (6, 8, 22, 23 and anything above 25) fail with the unknown
object type error. -/
def readObject (mx : Nat) (H : Handler σ) (key : Str) (t : Nat) (b : Buf) (s : σ) :
    Except GoErr (Buf × σ) := do
  if t = 0 then do
    let (value, b) ← readString mx b
    match H.handleString s key value with
    | (_, some e) => .error e
    | (s, none) => .ok (b, s)
  else if t = 1 then do
    let (s, cb) := H.listEntryHandler s key
    let (read, b, s) ← readList mx cb b s
    .ok (b, H.handleListEnding s key read)
  else if t = 2 then do
    let (s, cb) := H.setEntryHandler s key
    let (b, s) ← readSet mx cb b s
    .ok (b, s)
  else if t = 3 then do
    let (s, cb) := H.zsetEntryHandler s key
    let (read, b, s) ← readZset mx cb b s
    .ok (b, H.handleZsetEnding s key read)
  else if t = 4 then do
    let (s, cb) := H.hashEntryHandler s key
    let (b, s) ← readHash mx cb b s
    .ok (b, s)
  else if t = 5 then do
    let (s, cb) := H.zsetEntryHandler s key
    let (read, b, s) ← readZset2 mx cb b s
    .ok (b, H.handleZsetEnding s key read)
  else if t = 7 then do
    let (value, marker, b) ← readModule2 mx H.allowPartialRead b
    match H.handleModule s key value marker with
    | (_, some e) => .error e
    | (s, none) => .ok (b, s)
  else if t = 9 then do
    let (s, cb) := H.hashEntryHandler s key
    let (b, s) ← readHashZipmap mx cb b s
    .ok (b, s)
  else if t = 10 then do
    let (s, cb) := H.listEntryHandler s key
    let (read, b, s) ← readListZiplist mx cb b s
    .ok (b, H.handleListEnding s key read)
  else if t = 11 then do
    let (s, cb) := H.setEntryHandler s key
    let (b, s) ← readSetIntset mx cb b s
    .ok (b, s)
  else if t = 12 then do
    let (s, cb) := H.zsetEntryHandler s key
    let (read, b, s) ← readZsetZiplist mx cb b s
    .ok (b, H.handleZsetEnding s key read)
  else if t = 13 then do
    let (s, cb) := H.hashEntryHandler s key
    let (b, s) ← readHashZiplist mx cb b s
    .ok (b, s)
  else if t = 14 then do
    let (s, cb) := H.listEntryHandler s key
    let (read, b, s) ← readListQuicklist mx cb b s
    .ok (b, H.handleListEnding s key read)
  else if t = 15 ∨ t = 19 ∨ t = 21 then do
    let (s, ecb) := H.streamEntryHandler s key
    let (s, gcb) := H.streamGroupHandler s key
    let (read, b, s) ← readStreamListpacks0 mx t ecb gcb b s
    .ok (b, H.handleStreamEnding s key read)
  else if t = 16 then do
    let (s, cb) := H.hashEntryHandler s key
    let (b, s) ← readHashListpack mx cb b s
    .ok (b, s)
  else if t = 17 then do
    let (s, cb) := H.zsetEntryHandler s key
    let (read, b, s) ← readZsetListpack mx cb b s
    .ok (b, H.handleZsetEnding s key read)
  else if t = 18 then do
    let (s, cb) := H.listEntryHandler s key
    let (read, b, s) ← readListQuicklist2 mx cb b s
    .ok (b, H.handleListEnding s key read)
  else if t = 20 then do
    let (s, cb) := H.setEntryHandler s key
    let (b, s) ← readSetListpack mx cb b s
    .ok (b, s)
  else if t = 24 then do
    let (s, cb) := H.hashWithExpEntryHandler s key
    let (b, s) ← readHashMetadata mx cb b s
    .ok (b, s)
  else if t = 25 then do
    let (s, cb) := H.hashWithExpEntryHandler s key
    let (b, s) ← readHashListpackEx mx cb b s
    .ok (b, s)
  else .error (.unknownObjectType t)

/-- `readValue` / `ReadValue`: read the type byte then dispatch. -/
def readValue (mx : Nat) (H : Handler σ) (key : Str) (payload : List Nat) (s : σ) :
    Except GoErr (Buf × σ) := do
  let (t, b) ← readUint8 (Buf.ofBytes payload)
  readObject mx H key t b s

/-! The `Writer` of `writer.go`. The Go writer keeps a capacity-doubling
byte buffer capped at `limit`; a write of `n` bytes succeeds exactly when
`pos + n ≤ limit` (the grow path errors otherwise), so the embedding
keeps only the written content, the position and the limit. The stream
writer patches earlier positions through `pos`, hence writes overwrite in
place and may extend. -/

/-- Writer state (`Writer.buf[:high-water]`, `Writer.pos`,
`Writer.limit`). -/
structure Writer where
  data : List Nat
  pos : Nat
  limit : Nat
  deriving DecidableEq, Repr

/-- `NewWriter` (1 MB limit). -/
def Writer.new : Writer := ⟨[], 0, 1 <<< 20⟩

/-- Overwrite `bs` into `d` at position `p` (extending at the end). -/
def overwriteAt (d : List Nat) (p : Nat) (bs : List Nat) : List Nat :=
  d.take p ++ bs ++ d.drop (p + bs.length)

/-- `Writer.write` (also the single primitive behind the fixed-width
writes): fails without state change when the limit would be exceeded. -/
def Writer.write (w : Writer) (bs : List Nat) : Except GoErr Writer :=
  if w.limit < w.pos + bs.length then .error .writerLimitExceeded
  else .ok ⟨overwriteAt w.data w.pos bs, w.pos + bs.length, w.limit⟩

/-- `GetBuffer`. -/
def Writer.buffer (w : Writer) : List Nat := w.data.take w.pos

/-- Little-endian bytes of a value in `width` bytes. -/
def leBytes (width : Nat) (v : Nat) : List Nat :=
  (List.range width).map (fun i => v / 256 ^ i % 256)

/-- Big-endian bytes of a value in `width` bytes. -/
def beBytes (width : Nat) (v : Nat) : List Nat := (leBytes width v).reverse

/-- `Writer.writeUint8`. -/
def Writer.writeUint8 (w : Writer) (v : Nat) : Except GoErr Writer := w.write [v % 256]

/-- `Writer.writeUint16` (little endian). -/
def Writer.writeUint16 (w : Writer) (v : Nat) : Except GoErr Writer := w.write (leBytes 2 v)

/-- `Writer.writeUint16BE`. -/
def Writer.writeUint16BE (w : Writer) (v : Nat) : Except GoErr Writer := w.write (beBytes 2 v)

/-- `Writer.writeUint32` (little endian). -/
def Writer.writeUint32 (w : Writer) (v : Nat) : Except GoErr Writer := w.write (leBytes 4 v)

/-- `Writer.writeUint32BE`. -/
def Writer.writeUint32BE (w : Writer) (v : Nat) : Except GoErr Writer := w.write (beBytes 4 v)

/-- `Writer.writeUint64` (little endian). -/
def Writer.writeUint64 (w : Writer) (v : Nat) : Except GoErr Writer := w.write (leBytes 8 v)

/-- `Writer.writeUint64BE`. -/
def Writer.writeUint64BE (w : Writer) (v : Nat) : Except GoErr Writer := w.write (beBytes 8 v)

/-- `Writer.writeLen`: the shortest legal length form (6-bit, 14-bit,
32-bit or 64-bit). -/
def Writer.writeLen (w : Writer) (length : Nat) : Except GoErr Writer :=
  if length ≤ 63 then w.writeUint8 length
  else if length ≤ 16383 then w.writeUint16BE (length ||| 0x4000)
  else if length ≤ 2 ^ 32 - 1 then do
    let w ← w.writeUint8 0x80
    w.writeUint32BE length
  else do
    let w ← w.writeUint8 0x81
    w.writeUint64BE length

/-- `Writer.writeLenUint64`: always the 8-byte form. -/
def Writer.writeLenUint64 (w : Writer) (length : Nat) : Except GoErr Writer := do
  let w ← w.writeUint8 0x81
  w.writeUint64BE length

/-- `Writer.WriteString`: shortest length prefix, then the raw bytes
(the encoder never compresses and never re-narrows integers). -/
def Writer.writeString (w : Writer) (s : Str) : Except GoErr Writer := do
  let w ← w.writeLen s.length
  w.write s

/-- Loop of `Writer.WriteList` / `Writer.WriteSet`. -/
def writeStringsLoop (w : Writer) : List Str → Except GoErr Writer
  | [] => .ok w
  | s :: rest => do
    let w ← w.writeString s
    writeStringsLoop w rest

/-- `Writer.WriteList`. -/
def Writer.writeList (w : Writer) (list : List Str) : Except GoErr Writer := do
  let w ← w.writeLen list.length
  writeStringsLoop w list

/-- `Writer.WriteSet`. -/
def Writer.writeSet (w : Writer) (set : List Str) : Except GoErr Writer := do
  let w ← w.writeLen set.length
  writeStringsLoop w set

/-- Loop of `Writer.WriteZset` (scores carried as IEEE-754 bits,
`math.Float64bits` being the identity on the carried bits). -/
def writeZsetLoop (w : Writer) : List (Str × Nat) → Except GoErr Writer
  | [] => .ok w
  | (elem, bits) :: rest => do
    let w ← w.writeString elem
    let w ← w.writeUint64 bits
    writeZsetLoop w rest

/-- `Writer.WriteZset` (writes the `Zset2` wire form). -/
def Writer.writeZset (w : Writer) (elements : List Str) (scores : List Nat) :
    Except GoErr Writer :=
  if elements.length ≠ scores.length then .error .zsetLengthMismatch
  else do
    let w ← w.writeLen elements.length
    writeZsetLoop w (elements.zip scores)

/-- Loop of `Writer.WriteHash`. Go iterates the map in unspecified order;
the embedding writes the association list in its own order, one of the
admissible behaviours. -/
def writeHashLoop (w : Writer) : List (Str × Str) → Except GoErr Writer
  | [] => .ok w
  | (key, value) :: rest => do
    let w ← w.writeString key
    let w ← w.writeString value
    writeHashLoop w rest

/-- `Writer.WriteHash`. -/
def Writer.writeHash (w : Writer) (hash : List (Str × Str)) : Except GoErr Writer := do
  let w ← w.writeLen hash.length
  writeHashLoop w hash

/-- `Writer.WriteJSON` (`moduleWriter.WriteJSON`): module id with version
3, one String op-code carrying the serialised JSON, then the module EOF
op-code. -/
def Writer.writeJSON (w : Writer) (json : Str) : Except GoErr Writer := do
  let w ← w.writeLen ((jsonModuleID &&& 0xFFFFFFFFFFFFFC00) ||| (3 &&& 0x3FF))
  let w ← w.writeLen 5
  let w ← w.writeString json
  w.writeLen 0

/-- The back-length byte rendering of `Writer.writeListpackEntry`
(7 bits per byte, most significant first, continuation bit on all but the
first byte). -/
def backLenBytes (backLen : Nat) : List Nat :=
  if backLen ≤ 127 then [backLen % 256]
  else if backLen < 16383 then
    [(backLen >>> 7) % 256, ((backLen &&& 127) ||| 128) % 256]
  else if backLen < 2097151 then
    [(backLen >>> 14) % 256, (((backLen >>> 7) &&& 127) ||| 128) % 256,
     ((backLen &&& 127) ||| 128) % 256]
  else if backLen < 268435455 then
    [(backLen >>> 21) % 256, (((backLen >>> 14) &&& 127) ||| 128) % 256,
     (((backLen >>> 7) &&& 127) ||| 128) % 256, ((backLen &&& 127) ||| 128) % 256]
  else
    [(backLen >>> 28) % 256, (((backLen >>> 21) &&& 127) ||| 128) % 256,
     (((backLen >>> 14) &&& 127) ||| 128) % 256, (((backLen >>> 7) &&& 127) ||| 128) % 256,
     ((backLen &&& 127) ||| 128) % 256]

/-- `Writer.writeListpackEntry`: always the 32-bit string form; returns
the entry's total size. -/
def Writer.writeListpackEntry (w : Writer) (value : Str) : Except GoErr (Nat × Writer) := do
  let w ← w.writeUint8 0xF0
  let w ← w.writeUint32 value.length
  let w ← w.write value
  let backLen := 5 + value.length
  let bl := backLenBytes backLen
  let w ← w.write bl
  .ok (1 + 4 + value.length + bl.length, w)

/-- `Writer.writeListpackIntEntry`: the narrowest of the int16/int32/int64
forms that fits, a 1-byte back length; returns the entry's total size. -/
def Writer.writeListpackIntEntry (w : Writer) (value : Int) : Except GoErr (Nat × Writer) := do
  let (encoding, encodingLen) :=
    if -(2 ^ 15) ≤ value ∧ value ≤ 2 ^ 15 - 1 then (0xF1, 2)
    else if -(2 ^ 31) ≤ value ∧ value ≤ 2 ^ 31 - 1 then (0xF3, 4)
    else (0xF4, 8)
  let w ← w.writeUint8 encoding
  let w ← w.write (leBytes encodingLen (toUint64 value))
  let w ← w.writeUint8 (1 + encodingLen)
  .ok (1 + encodingLen + 1, w)

/-- Elements at even indices (`for i := 0; i < len; i += 2`). -/
def evenIndexed : List α → List α
  | [] => []
  | [a] => [a]
  | a :: _ :: rest => a :: evenIndexed rest

/-- Elements at odd indices (`for i := 1; i < len; i += 2`). -/
def oddIndexed : List α → List α
  | [] => []
  | [_] => []
  | _ :: b :: rest => b :: oddIndexed rest

/-- A write whose returned error the source discards
(`sw.writer.WriteString(...)` and the dummy `writeLenUint64` of the
stream writer). On failure the Go writer may retain a partial prefix of
the compound write; that can only occur at the 1 MB limit, which no
theorem of this file exercises, so the pre-write state is kept. -/
def ignoreWriteErr (w : Writer) (r : Except GoErr Writer) : Writer :=
  match r with
  | .ok w' => w'
  | .error _ => w

/-- Listpack-entry loop of the stream writer (field names / values),
accumulating the byte and entry counts. -/
def writeLpEntriesLoop (w : Writer) (lpBytes lpCount : Nat) :
    List Str → Except GoErr (Nat × Nat × Writer)
  | [] => .ok (lpBytes, lpCount, w)
  | v :: rest => do
    let (size, w) ← w.writeListpackEntry v
    writeLpEntriesLoop w (lpBytes + size) (lpCount + 1) rest

/-- One entry of `StreamWriter.WriteEntries`: the 16-byte master ID
string, a dummy string length later patched, the one-entry listpack
(count 1, deleted 0, master fields, flag 2, zero deltas, values,
trailing entry count), then the patch-back of `lpbytes`, `lplen` and the
string length. -/
def writeStreamEntry (w : Writer) (entry : StreamEntry) : Except GoErr Writer := do
  let vals := entry.value.getD []
  let w := ignoreWriteErr w
    (w.writeString (beBytes 8 entry.id.millis ++ beBytes 8 entry.id.seq))
  let strLenPos := w.pos
  let w := ignoreWriteErr w (w.writeLenUint64 0)
  let lpBytesPos := w.pos
  let w ← w.writeUint32 0
  let w ← w.writeUint16 0
  let (s1, w) ← w.writeListpackIntEntry 1   -- count
  let (s2, w) ← w.writeListpackIntEntry 0   -- deleted
  let (s3, w) ← w.writeListpackIntEntry ((vals.length / 2 : Nat) : Int)  -- num fields
  let (fBytes, fCount, w) ← writeLpEntriesLoop w 0 0 (evenIndexed vals)
  let (s4, w) ← w.writeListpackIntEntry 0   -- master-entry terminator
  let (s5, w) ← w.writeListpackIntEntry 2   -- flags: same fields as master
  let (s6, w) ← w.writeListpackIntEntry 0   -- millis delta
  let (s7, w) ← w.writeListpackIntEntry 0   -- seq delta
  let (vBytes, vCount, w) ← writeLpEntriesLoop w 0 0 (oddIndexed vals)
  let (s8, w) ← w.writeListpackIntEntry ((3 + vals.length / 2 : Nat) : Int)  -- lp entry count
  let w ← w.writeUint8 255
  let lpBytes := s1 + s2 + s3 + fBytes + s4 + s5 + s6 + s7 + vBytes + s8 + (4 + 2 + 1)
  let lpCount := 3 + fCount + 5 + vCount
  let afterPos := w.pos
  let w ← { w with pos := lpBytesPos }.writeUint32 (lpBytes % 2 ^ 32)
  let w ← w.writeUint16 (if lpCount ≥ 65535 then 65535 else lpCount)
  let w ← { w with pos := strLenPos }.writeLenUint64 (lpBytes % 2 ^ 32)
  .ok { w with pos := afterPos }

/-- Entry loop of `StreamWriter.WriteEntries`. -/
def writeStreamEntriesLoop (w : Writer) : List StreamEntry → Except GoErr Writer
  | [] => .ok w
  | entry :: rest => do
    let w ← writeStreamEntry w entry
    writeStreamEntriesLoop w rest

/-- `StreamWriter.WriteEntries`. -/
def writeStreamEntries (w : Writer) (entries : List StreamEntry) : Except GoErr Writer := do
  let w ← w.writeLen entries.length
  writeStreamEntriesLoop w entries

/-- `StreamWriter.WriteMetadata` (v1 form: length and last ID only). -/
def writeStreamMetadata (w : Writer) (length : Nat) (lastID : StreamID) :
    Except GoErr Writer := do
  let w ← w.writeLen length
  let w ← w.writeLen lastID.millis
  w.writeLen lastID.seq

/-- The global PEL of one group, as built by `WriteConsumerGroups`
(a map keyed by entry ID; later insertions of the same ID replace). -/
def groupGlobalPEL (group : StreamConsumerGroup) : List (StreamID × StreamPendingEntry) :=
  group.consumers.foldl (fun m c =>
    c.pendingEntries.foldl (fun m pe => alistPut m pe.entry.id pe) m) []

/-- Global-PEL write loop of `WriteConsumerGroups`. -/
def writeGlobalPELLoop (w : Writer) : List (StreamID × StreamPendingEntry) → Except GoErr Writer
  | [] => .ok w
  | (_, pe) :: rest => do
    let w ← w.writeUint64BE pe.entry.id.millis
    let w ← w.writeUint64BE pe.entry.id.seq
    let w ← w.writeUint64 (toUint64 pe.deliveryTime)
    let w ← w.writeLen pe.deliveryCount
    writeGlobalPELLoop w rest

/-- Consumer-PEL ID write loop of `WriteConsumerGroups`. -/
def writeConsumerPELLoop (w : Writer) : List StreamPendingEntry → Except GoErr Writer
  | [] => .ok w
  | pe :: rest => do
    let w ← w.writeUint64BE pe.entry.id.millis
    let w ← w.writeUint64BE pe.entry.id.seq
    writeConsumerPELLoop w rest

/-- Consumer write loop of `WriteConsumerGroups`. -/
def writeConsumersLoop (w : Writer) : List StreamConsumer → Except GoErr Writer
  | [] => .ok w
  | c :: rest => do
    let w ← w.writeString c.name
    let w ← w.writeUint64 (toUint64 c.seenTime)
    let w ← w.writeLen c.pendingEntries.length
    let w ← writeConsumerPELLoop w c.pendingEntries
    writeConsumersLoop w rest

/-- Group write loop of `StreamWriter.WriteConsumerGroups`. -/
def writeGroupsLoop (w : Writer) : List StreamConsumerGroup → Except GoErr Writer
  | [] => .ok w
  | group :: rest => do
    let w ← w.writeString group.name
    let w ← w.writeLen group.lastID.millis
    let w ← w.writeLen group.lastID.seq
    let pel := groupGlobalPEL group
    let w ← w.writeLen pel.length
    let w ← writeGlobalPELLoop w pel
    let w ← w.writeLen group.consumers.length
    let w ← writeConsumersLoop w group.consumers
    writeGroupsLoop w rest

/-- `StreamWriter.WriteConsumerGroups`. -/
def writeStreamGroups (w : Writer) (groups : List StreamConsumerGroup) :
    Except GoErr Writer := do
  let w ← w.writeLen groups.length
  writeGroupsLoop w groups

/-- `Writer.WriteStream` (the simplified one-entry-per-listpack v1
encoding). -/
def Writer.writeStream (w : Writer) (stream : Stream) : Except GoErr Writer := do
  let w ← writeStreamEntries w stream.entries
  let w ← writeStreamMetadata w stream.length stream.lastID
  writeStreamGroups w stream.groups

/-! The envelope reader of `ReadFile`. The file-backed buffer is embedded
over the file's logical region (header through the byte before the CRC
footer); with the source's 1 MB read-ahead window the running CRC at the
EOF op-code covers exactly that region, seeded with the header by
`initCRC` (not under `src/`; modelled from the spec: the CRC runs from
the signature byte onward). -/

/-- A no-op variant of a handler, embedding the `nopHandler` switch of
the select-db path (the nop handler has no state, so the user state is
simply carried unchanged; `AllowPartialRead` answers true). -/
def Handler.suppress (_ : Handler σ) : Handler σ where
  allowPartialRead := true
  handleString := fun s _ _ => (s, none)
  listEntryHandler := fun s _ => (s, fun s _ => (s, none))
  handleListEnding := fun s _ _ => s
  setEntryHandler := fun s _ => (s, fun s _ => (s, none))
  zsetEntryHandler := fun s _ => (s, fun s _ _ => (s, none))
  handleZsetEnding := fun s _ _ => s
  hashEntryHandler := fun s _ => (s, fun s _ _ => (s, none))
  hashWithExpEntryHandler := fun s _ => (s, fun s _ _ _ => (s, none))
  handleModule := fun s _ _ _ => (s, none)
  streamEntryHandler := fun s _ => (s, fun s _ => (s, none))
  streamGroupHandler := fun s _ => (s, fun s _ => (s, none))
  handleStreamEnding := fun s _ _ => s
  handleExpireTime := fun s _ _ => (s, none)

/-- Wrap of a Go `int64` product (`time.Duration` arithmetic). -/
def i64wrap (i : Int) : Int := toInt64 (toUint64 i)

/-- The EOF op-code case of the `ReadFile` loop for CRC-carrying
versions: read the 8-byte little-endian footer (an empty read is `io.EOF`,
any other length than 8 is the CRC-length error), accept a stored zero
unchecked, and otherwise compare against the running CRC over signature
through the end of the logical region. -/
def readFileEOFCase (all : List Nat) (fileLen : Nat) : Except GoErr Unit :=
  let footer := (all.drop (9 + fileLen)).take 9
  if footer.length = 0 then .error .ioEOF
  else if footer.length ≠ 8 then .error .unexpectedCRCLen
  else
    let crc := le64 footer
    if crc = 0 then .ok ()
    else if getCRC 0 (all.take (9 + fileLen)) ≠ crc then .error .badCRC
    else .ok ()

/-- The key/value case of the `ReadFile` loop (`readObject` of the
envelope file): read the key, dispatch to the value decoder, then
forward a pending expiry to the handler. -/
def readFileObject (mx : Nat) (H : Handler σ) (t : Nat) (hasExp : Bool) (expTime : Int)
    (b : Buf) (s : σ) : Except GoErr (Buf × σ) := do
  let (key, b) ← readString mx b
  let (b, s) ← readObject mx H key t b s
  if hasExp then
    match H.handleExpireTime s key expTime with
    | (_, some e) => .error e
    | (s, none) => .ok (b, s)
  else .ok (b, s)

/-- The op-code loop of `ReadFile`. Each iteration reads one type byte;
`active` tells whether records are routed to the user handler or (after a
non-zero select-db under partial read) to the nop handler. -/
def readFileLoop (mx : Nat) (H : Handler σ) (all : List Nat) (fileLen : Nat)
    (endsWithCRC : Bool) : Nat → Bool → Bool → Int → Buf → σ → Except GoErr σ
  | 0, _, _, _, _, _ => .error .fuelExhausted
  | fuel + 1, active, hasExp, expTime, b, s => do
    let AH := if active then H else H.suppress
    let (t, b) ← readUint8 b
    if t = 255 then
      if ¬endsWithCRC then .ok s
      else do
        let _ ← readFileEOFCase all fileLen
        .ok s
    else if t = 254 then do
      let (dbnum, _, b) ← readLen b
      if dbnum ≠ 0 then
        if ¬AH.allowPartialRead then .error .multipleDatabases
        else readFileLoop mx H all fileLen endsWithCRC fuel false hasExp expTime b s
      else readFileLoop mx H all fileLen endsWithCRC fuel true hasExp expTime b s
    else if t = 253 then do
      let (v, b) ← readUint32 b
      readFileLoop mx H all fileLen endsWithCRC fuel active true ((v : Int) * 1000000000) b s
    else if t = 252 then do
      let (v, b) ← readUint64 b
      readFileLoop mx H all fileLen endsWithCRC fuel active true
        (i64wrap (toInt64 v * 1000000)) b s
    else if t = 251 then do
      let (_, _, b) ← readLen b
      let (_, _, b) ← readLen b
      readFileLoop mx H all fileLen endsWithCRC fuel active hasExp expTime b s
    else if t = 250 then do
      let (_, b) ← readString mx b
      let (_, b) ← readString mx b
      readFileLoop mx H all fileLen endsWithCRC fuel active hasExp expTime b s
    else if t = 249 then do
      let (_, b) ← readUint8 b
      readFileLoop mx H all fileLen endsWithCRC fuel active hasExp expTime b s
    else if t = 248 then do
      let (_, _, b) ← readLen b
      readFileLoop mx H all fileLen endsWithCRC fuel active hasExp expTime b s
    else if t = 247 then do
      let (_, _, b) ← readLen b
      let b ← moduleSkip mx (b.data.length + 1 - b.pos) b
      readFileLoop mx H all fileLen endsWithCRC fuel active hasExp expTime b s
    else if t = 246 then .error .preGAFunction
    else if t = 245 then
      if ¬AH.allowPartialRead then .error .functionNotSupported
      else do
        let (_, b) ← readString mx b
        readFileLoop mx H all fileLen endsWithCRC fuel active hasExp expTime b s
    else if t > 21 then .error (.unknownEncodingType t)
    else do
      let (b, s) ← readFileObject mx AH t hasExp expTime b s
      readFileLoop mx H all fileLen endsWithCRC fuel active false expTime b s

/-- `ReadFile` over the file's bytes: header and version checks, CRC
applicability (`version ≥ 5`), then the op-code loop over the logical
region. The 3-argument `readFile` used by the verifier is not under
`src/`; modelled from the spec as the same loop with the LZ77 ceiling
`mx` threaded into the value reader (`ReadFile` itself uses `mx = 0`). -/
def readFileModel (mx : Nat) (H : Handler σ) (s : σ) (all : List Nat) : Except GoErr σ :=
  if all.length = 0 then .error .ioEOF
  else if all.length < 9 then .error .unexpectedEOF
  else
    let header := all.take 9
    if header.take 5 ≠ [82, 69, 68, 73, 83] then .error .wrongSignature
    else
      match goAtoi (header.drop 5) with
      | .error e => .error e
      | .ok version =>
        if version < 1 ∨ version > 12 then .error (.unsupportedVersion version)
        else
          let endsWithCRC := version ≥ 5
          let fileLen := all.length - 9 - (if endsWithCRC then 8 else 0)
          let body := (all.drop 9).take fileLen
          readFileLoop mx H all fileLen endsWithCRC (fileLen + 1) true false 0
            (Buf.ofBytes body) s

/-! The verifier of `verify.go`, as an instance of the generic handler:
its state is the running `dataSize` plus the per-acquisition `entrySize`
scratch of the entry closures. -/

/-- The four size limits (`VerifyFileOptions` / `VerifyReaderOptions`). -/
structure Limits where
  maxData : Int
  maxEntry : Int
  maxKey : Int
  maxPEL : Int
  deriving DecidableEq, Repr

/-- `maybeSetDefaults`: non-positive limits are replaced by the package
defaults (256 MB, 100 MB, 32 KB, 1000). -/
def Limits.withDefaults (o : Limits) : Limits where
  maxData := if o.maxData ≤ 0 then 256 <<< 20 else o.maxData
  maxEntry := if o.maxEntry ≤ 0 then 100 <<< 20 else o.maxEntry
  maxKey := if o.maxKey ≤ 0 then 32 <<< 10 else o.maxKey
  maxPEL := if o.maxPEL ≤ 0 then 1000 else o.maxPEL

/-- `maxStreamStrSize` (`math.MaxUint32`). -/
def maxStreamStrSize : Int := 2 ^ 32 - 1

/-- Verifier state (`verifier.dataSize` and the entry-size scratch of the
currently acquired entry closure). -/
structure VSt where
  dataSize : Int
  entrySize : Int
  deriving DecidableEq, Repr

/-- The shared key-check-and-account prelude of the verifier's
`...EntryHandler` acquisitions: an oversized key or an exceeded data size
poisons the returned closure with the corresponding error (reading the
data size at call time, as the Go closure dereferences `v`). -/
def vAcquire (L : Limits) (s : VSt) (key : Str) : VSt × Option (VSt → Option GoErr) :=
  if (key.length : Int) > L.maxKey then
    (s, some (fun _ => some (.maxKeySizeExceeded key.length L.maxKey)))
  else
    let s := { s with dataSize := s.dataSize + key.length }
    if s.dataSize > L.maxData then
      (s, some (fun s2 => some (.maxDataSizeExceeded s2.dataSize L.maxData)))
    else ({ s with entrySize := 0 }, none)

/-- The per-element accounting shared by the verifier's entry closures:
`entrySize += elementSize` then the entry-size check, `dataSize +=
elementSize` then the data-size check (mutations persist on error, as in
the source). -/
def vElement (L : Limits) (s : VSt) (elementSize : Int) : VSt × Option GoErr :=
  let s := { s with entrySize := s.entrySize + elementSize }
  if s.entrySize > L.maxEntry then (s, some (.maxEntrySizeExceeded s.entrySize L.maxEntry))
  else
    let s := { s with dataSize := s.dataSize + elementSize }
    if s.dataSize > L.maxData then (s, some (.maxDataSizeExceeded s.dataSize L.maxData))
    else (s, none)

/-- `verifier.HandleString` (and, with the value length, the shape of
`HandleModule`): key check, entry check, then data accounting. -/
def vHandleString (L : Limits) (s : VSt) (key value : Str) : VSt × Option GoErr :=
  if (key.length : Int) > L.maxKey then
    (s, some (.maxKeySizeExceeded key.length L.maxKey))
  else if (value.length : Int) > L.maxEntry then
    (s, some (.maxEntrySizeExceeded value.length L.maxEntry))
  else
    let s := { s with dataSize := s.dataSize + key.length + value.length }
    if s.dataSize > L.maxData then (s, some (.maxDataSizeExceeded s.dataSize L.maxData))
    else (s, none)

/-- `verifier.StreamEntryHandler`'s per-entry closure: value strings are
checked against `maxStreamStrSize`, then `dataSize` grows by the value
bytes plus 16 for the ID; there is deliberately no entry-size check. -/
def vStreamEntry (L : Limits) (s : VSt) (entry : StreamEntry) : VSt × Option GoErr :=
  let vals := entry.value.getD []
  match vals.find? (fun v => (v.length : Int) > maxStreamStrSize) with
  | some v => (s, some (.maxStreamStrSizeExceeded v.length maxStreamStrSize))
  | none =>
    let valueSize : Int := vals.foldl (fun acc v => acc + v.length) 0
    let s := { s with dataSize := s.dataSize + valueSize + 16 }
    if s.dataSize > L.maxData then (s, some (.maxDataSizeExceeded s.dataSize L.maxData))
    else (s, none)

/-- The group-size accumulation of `verifier.StreamGroupHandler`,
with its name, PEL-length and string checks in source order; returns the
group's size or the first violation. -/
def vGroupSize (L : Limits) (group : StreamConsumerGroup) : Except GoErr Int := do
  if (group.name.length : Int) > maxStreamStrSize then
    .error (.maxStreamStrSizeExceeded group.name.length maxStreamStrSize)
  else
    group.consumers.foldlM (fun acc c => do
      if (c.name.length : Int) > maxStreamStrSize then
        .error (.maxStreamStrSizeExceeded c.name.length maxStreamStrSize)
      else
        let acc := acc + c.name.length + 16
        if (c.pendingEntries.length : Int) > L.maxPEL then
          .error (.maxStreamPELSizeExceeded c.pendingEntries.length L.maxPEL)
        else
          c.pendingEntries.foldlM (fun acc pe => do
            let acc := acc + 32
            (pe.entry.value.getD []).foldlM (fun acc v => do
              if (v.length : Int) > maxStreamStrSize then
                .error (.maxStreamStrSizeExceeded v.length maxStreamStrSize)
              else .ok (acc + v.length)) acc) acc)
      (group.name.length + 24 : Int)

/-- `verifier.StreamGroupHandler`'s per-group closure: on a passed group
the acquired `entrySize` grows by the group size and is checked, then
`dataSize` likewise (pending entries live both on disk and in memory). -/
def vStreamGroup (L : Limits) (s : VSt) (group : StreamConsumerGroup) : VSt × Option GoErr :=
  match vGroupSize L group with
  | .error e => (s, some e)
  | .ok groupSize =>
    let s := { s with entrySize := s.entrySize + groupSize }
    if s.entrySize > L.maxEntry then (s, some (.maxEntrySizeExceeded s.entrySize L.maxEntry))
    else
      let s := { s with dataSize := s.dataSize + groupSize }
      if s.dataSize > L.maxData then (s, some (.maxDataSizeExceeded s.dataSize L.maxData))
      else (s, none)

/-- The verifier as a `Handler` instance (`verify.go`'s `verifier`
methods; the `Handle...Ending` methods do nothing, `HandleExpireTime`
does nothing, stream group acquisition performs no key checks). -/
def verifierHandler (L : Limits) (allowPartial : Bool) : Handler VSt where
  allowPartialRead := allowPartial
  handleString := fun s key value => vHandleString L s key value
  listEntryHandler := fun s key =>
    match vAcquire L s key with
    | (s, some poison) => (s, fun s _ => (s, poison s))
    | (s, none) => (s, fun s elem => vElement L s elem.length)
  handleListEnding := fun s _ _ => s
  setEntryHandler := fun s key =>
    match vAcquire L s key with
    | (s, some poison) => (s, fun s _ => (s, poison s))
    | (s, none) => (s, fun s elem => vElement L s elem.length)
  zsetEntryHandler := fun s key =>
    match vAcquire L s key with
    | (s, some poison) => (s, fun s _ _ => (s, poison s))
    | (s, none) => (s, fun s elem _ => vElement L s (elem.length + 8))
  handleZsetEnding := fun s _ _ => s
  hashEntryHandler := fun s key =>
    match vAcquire L s key with
    | (s, some poison) => (s, fun s _ _ => (s, poison s))
    | (s, none) => (s, fun s field value => vElement L s (field.length + value.length))
  hashWithExpEntryHandler := fun s key =>
    match vAcquire L s key with
    | (s, some poison) => (s, fun s _ _ _ => (s, poison s))
    | (s, none) => (s, fun s field value _ => vElement L s (field.length + value.length + 8))
  handleModule := fun s key value _ => vHandleString L s key value
  streamEntryHandler := fun s key =>
    match vAcquire L s key with
    | (s, some poison) => (s, fun s _ => (s, poison s))
    | (s, none) => (s, fun s entry => vStreamEntry L s entry)
  streamGroupHandler := fun s _ => ({ s with entrySize := 0 },
    fun s group => vStreamGroup L s group)
  handleStreamEnding := fun s _ _ => s
  handleExpireTime := fun s _ _ => (s, none)

/-- `VerifyFile`/`VerifyReader` over the snapshot bytes: defaults are
applied to the options, the verifier handler is installed, and the LZ77
ceiling is the post-default `MaxEntrySize`. -/
def verifyFileModel (all : List Nat) (opts : Limits) (allowPartial : Bool) :
    Except GoErr VSt :=
  let L := opts.withDefaults
  readFileModel (toUint64 L.maxEntry) (verifierHandler L allowPartial) ⟨0, 0⟩ all

/-! Specification-level reference definitions: these follow the
specification's wording (for the refinement claims) and are compared with
the source-derived definitions above. -/

/-- The length-prefix decoder as the specification's four-encoding table
states it: dispatch on the top two bits of the first byte (`b0 >>> 6`),
with 00 the 6-bit length, 01 the 14-bit length (low 6 bits high part,
next byte low part), `0x80`/`0x81` the 32/64-bit big-endian forms, 11 the
special flag, and every other top-10 byte an error. -/
def readLenSpec (b : Buf) : Except GoErr (Nat × Bool × Buf) := do
  let (b0, b) ← readUint8 b
  match b0 >>> 6 with
  | 0 => .ok (b0 % 64, false, b)
  | 1 => do
    let (b1, b) ← readUint8 b
    .ok ((b0 % 64) * 256 + b1, false, b)
  | 2 =>
    if b0 = 0x80 then do
      let (v, b) ← readUint32BE b
      .ok (v, false, b)
    else if b0 = 0x81 then do
      let (v, b) ← readUint64BE b
      .ok (v, false, b)
    else .error .unexpectedLenEncoding
  | _ => .ok (b0 % 64, true, b)

/-- Instruction fetch of the reference LZ77 semantics: a long match
(top three bits `111`) takes a length byte and an offset byte, any other
match takes the offset byte alone. -/
def lz77SpecFetch (top3 : Nat) : List Nat → Except GoErr (Nat × Nat × List Nat)
  | inp =>
    if top3 = 7 then
      match inp with
      | lenByte :: offByte :: rest => .ok (9 + lenByte, offByte, rest)
      | _ => .error .corruptContent
    else
      match inp with
      | offByte :: rest => .ok (top3 + 2, offByte, rest)
      | [] => .error .corruptContent

/-- The LZ77 decompressor as the specification's instruction table states
it: dispatch on the top three bits of the control byte (`0` a literal run
of `low5 + 1` bytes, `7` a long match of length `9 + next`, anything else
a short match of length `top3 + 2`); the back-reference offset is
`((low5 << 8) | offset_byte) + 1` back from the output cursor, copied
byte by byte; input/output overruns, negative back references, and a
final length differing from the declared one are corrupt input. -/
def decompressLZ77Spec : Nat → List Nat → Nat → List Nat → Except GoErr (List Nat)
  | 0, _, _, _ => .error .fuelExhausted
  | _ + 1, [], outLen, out =>
    if out.length = outLen then .ok out else .error .corruptContent
  | fuel + 1, ctrl :: inp, outLen, out =>
    if ctrl >>> 5 = 0 then
      let run := (ctrl &&& 0x1F) + 1
      if inp.length < run then .error .corruptContent
      else if outLen < out.length + run then .error .corruptContent
      else decompressLZ77Spec fuel (inp.drop run) outLen (out ++ inp.take run)
    else
      match lz77SpecFetch (ctrl >>> 5) inp with
      | .error e => .error e
      | .ok (matchLen, offByte, inp') =>
        let offset := (((ctrl &&& 0x1F) <<< 8) ||| offByte) + 1
        if outLen < out.length + matchLen then .error .corruptContent
        else if (out.length : Int) - offset < 0 then .error .corruptContent
        else
          decompressLZ77Spec fuel inp' outLen
            (copyOverlap out (out.length - offset) matchLen)

/-! Concrete handler instances and snapshot fixtures used by the
evaluation theorems. -/

/-- A handler that accepts everything and records nothing. -/
def nopUnit : Handler Unit where
  allowPartialRead := false
  handleString := fun s _ _ => (s, none)
  listEntryHandler := fun s _ => (s, fun s _ => (s, none))
  handleListEnding := fun s _ _ => s
  setEntryHandler := fun s _ => (s, fun s _ => (s, none))
  zsetEntryHandler := fun s _ => (s, fun s _ _ => (s, none))
  handleZsetEnding := fun s _ _ => s
  hashEntryHandler := fun s _ => (s, fun s _ _ => (s, none))
  hashWithExpEntryHandler := fun s _ => (s, fun s _ _ _ => (s, none))
  handleModule := fun s _ _ _ => (s, none)
  streamEntryHandler := fun s _ => (s, fun s _ => (s, none))
  streamGroupHandler := fun s _ => (s, fun s _ => (s, none))
  handleStreamEnding := fun s _ _ => s
  handleExpireTime := fun s _ _ => (s, none)

/-- A handler that collects every delivered stream consumer group. -/
def groupCollector : Handler (List StreamConsumerGroup) where
  allowPartialRead := false
  handleString := fun s _ _ => (s, none)
  listEntryHandler := fun s _ => (s, fun s _ => (s, none))
  handleListEnding := fun s _ _ => s
  setEntryHandler := fun s _ => (s, fun s _ => (s, none))
  zsetEntryHandler := fun s _ => (s, fun s _ _ => (s, none))
  handleZsetEnding := fun s _ _ => s
  hashEntryHandler := fun s _ => (s, fun s _ _ => (s, none))
  hashWithExpEntryHandler := fun s _ => (s, fun s _ _ _ => (s, none))
  handleModule := fun s _ _ _ => (s, none)
  streamEntryHandler := fun s _ => (s, fun s _ => (s, none))
  streamGroupHandler := fun s _ => (s, fun s g => (s ++ [g], none))
  handleStreamEnding := fun s _ _ => s
  handleExpireTime := fun s _ _ => (s, none)

/-- A handler whose stream entry and stream group callbacks both return
an error, to exercise callback-error propagation. -/
def abortingStream : Handler Unit where
  allowPartialRead := false
  handleString := fun s _ _ => (s, none)
  listEntryHandler := fun s _ => (s, fun s _ => (s, none))
  handleListEnding := fun s _ _ => s
  setEntryHandler := fun s _ => (s, fun s _ => (s, none))
  zsetEntryHandler := fun s _ => (s, fun s _ _ => (s, none))
  handleZsetEnding := fun s _ _ => s
  hashEntryHandler := fun s _ => (s, fun s _ _ => (s, none))
  hashWithExpEntryHandler := fun s _ => (s, fun s _ _ _ => (s, none))
  handleModule := fun s _ _ _ => (s, none)
  streamEntryHandler := fun s _ => (s, fun s _ => (s, some (.handlerAbort 1)))
  streamGroupHandler := fun s _ => (s, fun s _ => (s, some (.handlerAbort 2)))
  handleStreamEnding := fun s _ _ => s
  handleExpireTime := fun s _ _ => (s, none)

/-- A well-formed two-entry stream with one group, one consumer and two
pending entries, both referring to entries present in the stream. -/
def sG : Stream :=
  ⟨⟨2, 0⟩, [⟨⟨1, 0⟩, some [[102], [118]]⟩, ⟨⟨2, 0⟩, some [[102], [119]]⟩], 2,
   [⟨[103], ⟨2, 0⟩, 0,
     [⟨[99], 5, 0, [⟨⟨⟨1, 0⟩, none⟩, 7, 1⟩, ⟨⟨⟨2, 0⟩, none⟩, 8, 2⟩]⟩]⟩]⟩

/-- A stream whose single consumer pending entry refers to ID (9, 9),
absent from the stream's entries. -/
def sBad : Stream :=
  ⟨⟨1, 0⟩, [⟨⟨1, 0⟩, some [[102], [118]]⟩], 1,
   [⟨[103], ⟨1, 0⟩, 0, [⟨[99], 5, 0, [⟨⟨⟨9, 9⟩, none⟩, 7, 1⟩]⟩]⟩]⟩

/-- The wire bytes of `sG`, produced by the repository's own stream
encoder. -/
def bytesG : List Nat := ((Writer.new.writeStream sG).toOption.getD Writer.new).buffer

/-- The wire bytes of `sBad`. -/
def bytesBad : List Nat := ((Writer.new.writeStream sBad).toOption.getD Writer.new).buffer

/-- A version-3 snapshot holding the stream `sG` under key k and one
string record, ending with the EOF op-code (no CRC at version 3). -/
def snapC9 : List Nat :=
  [82, 69, 68, 73, 83, 48, 48, 48, 51] ++ (15 :: ([1, 107] ++ bytesG)) ++
    [0, 1, 120, 1, 121] ++ [255]

/-- A minimal HashMetadata (tag 24) value payload: min-expiry 0, one
field with TTL 0, field a, value b. -/
def hmPayload : List Nat := leBytes 8 0 ++ [1, 0, 1, 97, 1, 98]

/-- A version-3 snapshot holding one HashMetadata (tag 24) record. -/
def snapC8 : List Nat :=
  [82, 69, 68, 73, 83, 48, 48, 48, 51] ++ (24 :: ([1, 107] ++ hmPayload)) ++ [255]

/-- A minimal version-11 envelope body: header plus the EOF op-code,
before the 8 CRC bytes. -/
def envBody : List Nat := [82, 69, 68, 73, 83, 48, 48, 49, 49] ++ [255]

/-- The compressed test vector of the repository's LZ77 tests: it
decompresses to the word upstash repeated 8 times (56 bytes). -/
def lz77Vec : List Nat :=
  [6, 117, 112, 115, 116, 97, 115, 104, 224, 35, 6, 4, 115, 116, 97, 115, 104]

/-- A value payload from the repository's checksum tests: the string
record upstashrocks, version 10, followed by its CRC-64. -/
def c10Payload : List Nat :=
  [0, 12, 117, 112, 115, 116, 97, 115, 104, 114, 111, 99, 107, 115,
   10, 0, 219, 124, 214, 167, 201, 155, 113, 148]

/-- Decidable equality for `Except`, used by the concrete evaluation
theorems. -/
instance [DecidableEq ε] [DecidableEq α] : DecidableEq (Except ε α)
  | .ok a, .ok b => if h : a = b then .isTrue (by rw [h]) else .isFalse (by simp [h])
  | .error a, .error b => if h : a = b then .isTrue (by rw [h]) else .isFalse (by simp [h])
  | .ok _, .error _ => .isFalse (by simp)
  | .error _, .ok _ => .isFalse (by simp)

/-! Helper lemmas. -/

/-- A successful single-byte read of a well-formed buffer yields a byte
value. -/
theorem readUint8_lt_256 {b b' : Buf} {v : Nat} (hwf : bytesWF b.data = true)
    (h : readUint8 b = .ok (v, b')) : v < 256 := by
  unfold readUint8 Buf.get at h
  by_cases hlen : b.data.length < b.pos + 1
  · simp [hlen, bind, Except.bind] at h
  · simp only [hlen, if_false, bind, Except.bind, Except.ok.injEq, Prod.mk.injEq] at h
    have hpos : b.pos < b.data.length := by omega
    have hdrop : b.data.drop b.pos = b.data[b.pos] :: b.data.drop (b.pos + 1) :=
      List.drop_eq_getElem_cons hpos
    have hv : v = b.data[b.pos] := by
      rw [hdrop] at h
      simpa [List.getD, List.getElem?_eq_getElem hpos] using h.1.symm
    have hmem : b.data[b.pos] ∈ b.data := List.getElem_mem hpos
    have := List.all_eq_true.mp hwf _ hmem
    simpa [hv] using this

/-- A successful single-byte read leaves the underlying bytes
unchanged. -/
theorem readUint8_ok_data {b b' : Buf} {v : Nat} (h : readUint8 b = .ok (v, b')) :
    b'.data = b.data := by
  unfold readUint8 Buf.get at h
  by_cases hlen : b.data.length < b.pos + 1
  · simp [hlen, bind, Except.bind] at h
  · simp only [hlen, if_false, bind, Except.bind, Except.ok.injEq, Prod.mk.injEq] at h
    exact h.2.symm ▸ rfl

/-- For a byte, the masked top two bits are the shifted quotient. -/
theorem and_192_eq (b0 : Nat) (hb : b0 < 256) : b0 &&& 192 = b0 / 64 * 64 := by
  interval_cases b0 <;> rfl

/-- For any value, masking with 63 is reduction mod 64. -/
theorem and_63_eq (b0 : Nat) : b0 &&& 63 = b0 % 64 := by
  simpa using Nat.and_pow_two_sub_one_eq_mod b0 6

/-- C6: `readLen` decodes the length prefix exactly per the four-encoding
table: top bits 00 give the low 6 bits, 01 a 14-bit length from the low
6 bits and the next byte, byte `0x80` a 32-bit big-endian length, byte
`0x81` a 64-bit big-endian length, top bits 11 the low 6 bits flagged as
a special encoding, and any other top-10 first byte an error. -/
theorem c6_readLen_matches_table (b : Buf) (hwf : bytesWF b.data = true) :
    readLen b = readLenSpec b := by
  unfold readLen readLenSpec
  cases hr : readUint8 b with
  | error e => simp [hr, bind, Except.bind]
  | ok p =>
    obtain ⟨b0, b'⟩ := p
    have hb : b0 < 256 := readUint8_lt_256 hwf hr
    have hand := and_192_eq b0 hb
    have h63 := and_63_eq b0
    have hshift : b0 >>> 6 = b0 / 64 := by
      rw [Nat.shiftRight_eq_div_pow]
    have hq : b0 / 64 < 4 := by omega
    simp only [hr, bind, Except.bind]
    interval_cases hqv : (b0 / 64)
    · -- top bits 00
      have h0 : b0 &&& 192 = 0 := by omega
      rw [hshift]
      simp [h0, h63]
    · -- top bits 01
      have h1 : b0 &&& 192 = 64 := by omega
      rw [hshift]
      simp only [h1]
      norm_num
      cases hr2 : readUint8 b' with
      | error e2 => simp
      | ok p2 =>
        obtain ⟨b1, b''⟩ := p2
        have hwf' : bytesWF b'.data = true := by rw [readUint8_ok_data hr]; exact hwf
        have hb1 : b1 < 256 := readUint8_lt_256 hwf' hr2
        have hor : (b0 &&& 63) <<< 8 ||| b1 = b0 % 64 * 256 + b1 := by
          rw [h63, Nat.shiftLeft_eq]
          calc b0 % 64 * 2 ^ 8 ||| b1 = 2 ^ 8 * (b0 % 64) ||| b1 := by ring_nf
            _ = 2 ^ 8 * (b0 % 64) + b1 := (Nat.mul_add_lt_is_or hb1 _).symm
            _ = b0 % 64 * 256 + b1 := by ring
        simp [hor]
    · -- top bits 10
      have h2 : b0 &&& 192 = 128 := by omega
      rw [hshift]
      simp [h2]
    · -- top bits 11
      have h3 : b0 &&& 192 = 192 := by omega
      rw [hshift]
      simp [h3, h63]

/-- C6 witness: the equivalence applied to a concrete 64-bit-form
buffer. -/
theorem c6_witness :
    bytesWF [129, 1, 2, 3, 4, 5, 6, 7, 8] = true ∧
      readLen (Buf.ofBytes [129, 1, 2, 3, 4, 5, 6, 7, 8]) =
        readLenSpec (Buf.ofBytes [129, 1, 2, 3, 4, 5, 6, 7, 8]) :=
  ⟨by decide, c6_readLen_matches_table _ (by decide)⟩

/-- The byte-by-byte copy grows the output by exactly the copied
length. -/
theorem copyOverlap_length : ∀ (n : Nat) (out : List Nat) (br : Nat),
    (copyOverlap out br n).length = out.length + n := by
  intro n
  induction n with
  | zero => intro out br; rfl
  | succ n ih =>
    intro out br
    show (copyOverlap (out ++ [out.getD br 0]) (br + 1) n).length = out.length + (n + 1)
    rw [ih]
    simp
    omega

/-- When the copied range lies entirely inside the existing output, the
byte-by-byte copy agrees with the slice copy of the Go fast path. -/
theorem copyOverlap_eq_slice : ∀ (n : Nat) (out : List Nat) (br : Nat),
    br + n ≤ out.length → copyOverlap out br n = out ++ (out.drop br).take n := by
  intro n
  induction n with
  | zero => intro out br _; simp [copyOverlap]
  | succ n ih =>
    intro out br h
    have hbr : br < out.length := by omega
    show copyOverlap (out ++ [out.getD br 0]) (br + 1) n = out ++ (out.drop br).take (n + 1)
    rw [ih (out ++ [out.getD br 0]) (br + 1) (by simp; omega)]
    have hdrop : out.drop br = out[br] :: out.drop (br + 1) := List.drop_eq_getElem_cons hbr
    have hgetD : out.getD br 0 = out[br] := List.getD_eq_getElem out 0 hbr
    have hdrop2 : (out ++ [out.getD br 0]).drop (br + 1) = out.drop (br + 1) ++ [out.getD br 0] := by
      rw [List.drop_append_of_le_length (by omega)]
    have htake : (out.drop (br + 1) ++ [out.getD br 0]).take n = (out.drop (br + 1)).take n := by
      rw [List.take_append_of_le_length]
      simp
      omega
    rw [hdrop2, htake, hdrop, hgetD]
    simp
    rw [List.drop_eq_getElem_cons hbr, List.take_succ_cons]

/-- Byte-wellformedness restricted to a dropped suffix. -/
theorem bytesWF_drop {l : List Nat} (n : Nat) (h : bytesWF l = true) :
    bytesWF (l.drop n) = true := by
  unfold bytesWF at h ⊢
  rw [List.all_eq_true] at h ⊢
  intro x hx
  exact h x (List.drop_subset n l hx)

/-- Byte-wellformedness through a cons. -/
theorem bytesWF_cons {c : Nat} {l : List Nat} (h : bytesWF (c :: l) = true) :
    c < 256 ∧ bytesWF l = true := by
  unfold bytesWF at h ⊢
  rw [List.all_cons] at h
  simp only [Bool.and_eq_true] at h
  exact ⟨by simpa using h.1, h.2⟩

/-- The Go instruction fetch with match length `t + 2` is the reference
fetch for top bits `t` (the `matchLen == 9` test coincides with the top
bits being `111`). -/
theorem lz77Fetch_eq_specFetch : ∀ (t : Nat) (inp : List Nat),
    lz77Fetch (t + 2) inp = lz77SpecFetch t inp := by
  intro t inp
  by_cases h7 : t = 7
  · subst h7
    cases inp with
    | nil => rfl
    | cons i1 inp1 => cases inp1 <;> rfl
  · have h9 : ¬ (t + 2 = 9) := by omega
    cases inp with
    | nil => simp [lz77Fetch, lz77SpecFetch, h7]
    | cons i1 inp1 => simp [lz77Fetch, lz77SpecFetch, h7, h9]

/-- A successful reference fetch yields a byte-valued offset and a
well-formed remainder. -/
theorem lz77SpecFetch_wf {inp : List Nat} {t m ob : Nat} {inp' : List Nat}
    (hwf : bytesWF inp = true) (h : lz77SpecFetch t inp = .ok (m, ob, inp')) :
    ob < 256 ∧ bytesWF inp' = true := by
  unfold lz77SpecFetch at h
  by_cases h7 : t = 7
  · rw [if_pos h7] at h
    cases inp with
    | nil => simp at h
    | cons a as =>
      cases as with
      | nil => simp at h
      | cons b bs =>
        simp only [Except.ok.injEq, Prod.mk.injEq] at h
        obtain ⟨ha, has⟩ := bytesWF_cons hwf
        obtain ⟨hb, hbs⟩ := bytesWF_cons has
        exact ⟨h.2.1 ▸ hb, h.2.2 ▸ hbs⟩
  · rw [if_neg h7] at h
    cases inp with
    | nil => simp at h
    | cons a as =>
      simp only [Except.ok.injEq, Prod.mk.injEq] at h
      obtain ⟨ha, has⟩ := bytesWF_cons hwf
      exact ⟨h.2.1 ▸ ha, h.2.2 ▸ has⟩

/-- Shared match-step argument of `lz77_go_eq_spec`: the two-subtraction
back-reference arithmetic of the source equals the specification's
or-combined offset, and the slice fast path equals the byte-by-byte
copy. -/
theorem lz77_match_step (fuel : Nat)
    (ih : ∀ (inp : List Nat) (outLen outIdx : Nat) (out : List Nat), bytesWF inp = true →
      outIdx = out.length →
      decompressLZ77Go fuel inp outLen outIdx out = decompressLZ77Spec fuel inp outLen out)
    (ctrl matchLen offByte : Nat) (inp' : List Nat) (outLen : Nat) (out : List Nat)
    (hoff : offByte < 256) (hwf : bytesWF inp' = true) :
    (if outLen < out.length + matchLen then (.error .corruptContent : Except GoErr (List Nat))
     else if ((out.length : Int) - (((ctrl &&& 0x1F) <<< 8 : Nat) : Int) - 1 - (offByte : Int)) < 0
     then .error .corruptContent
     else
       let br := ((out.length : Int) - (((ctrl &&& 0x1F) <<< 8 : Nat) : Int) - 1 -
         (offByte : Int)).toNat
       decompressLZ77Go fuel inp' outLen (out.length + matchLen)
         (if br + matchLen < out.length then out ++ ((out.drop br).take matchLen)
          else copyOverlap out br matchLen)) =
    (if outLen < out.length + matchLen then .error .corruptContent
     else if ((out.length : Int) - ((((ctrl &&& 0x1F) <<< 8) ||| offByte) + 1 : Nat)) < 0
     then .error .corruptContent
     else decompressLZ77Spec fuel inp' outLen
       (copyOverlap out (out.length - ((((ctrl &&& 0x1F) <<< 8) ||| offByte) + 1)) matchLen)) := by
  have hor : ((ctrl &&& 0x1F) <<< 8) ||| offByte = ((ctrl &&& 0x1F) <<< 8) + offByte := by
    rw [Nat.shiftLeft_eq]
    calc (ctrl &&& 0x1F) * 2 ^ 8 ||| offByte = 2 ^ 8 * (ctrl &&& 0x1F) ||| offByte := by ring_nf
      _ = 2 ^ 8 * (ctrl &&& 0x1F) + offByte := (Nat.mul_add_lt_is_or hoff _).symm
      _ = (ctrl &&& 0x1F) * 2 ^ 8 + offByte := by ring
  by_cases h1 : outLen < out.length + matchLen
  · simp only [if_pos h1]
  · simp only [if_neg h1]
    set c := (ctrl &&& 0x1F) <<< 8 with hcdef
    have hcond : ((out.length : Int) - (c : Int) - 1 - (offByte : Int)) =
        ((out.length : Int) - ((c ||| offByte) + 1 : Nat)) := by
      rw [hor]; push_cast; ring
    rw [hcond]
    by_cases h2 : ((out.length : Int) - ((c ||| offByte) + 1 : Nat)) < 0
    · rw [if_pos h2, if_pos h2]
    · rw [if_neg h2, if_neg h2]
      have hle : (c ||| offByte) + 1 ≤ out.length := by
        rw [hor] at h2
        omega
      have hbr : ((out.length : Int) - (((c ||| offByte) + 1 : Nat) : Int)).toNat =
          out.length - ((c ||| offByte) + 1) := by
        omega
      rw [hbr]
      by_cases h3 : out.length - ((c ||| offByte) + 1) + matchLen < out.length
      · rw [if_pos h3, copyOverlap_eq_slice matchLen out _ (by omega)]
        exact ih _ _ _ _ hwf (by rw [List.length_append, List.length_take, List.length_drop]; omega)
      · rw [if_neg h3]
        exact ih _ _ _ _ hwf (by rw [copyOverlap_length])


/-- The Go decompressor agrees with the specification's reference
semantics, step by step (the output cursor of the source equals the
output length throughout). -/
theorem lz77_go_eq_spec : ∀ (fuel : Nat) (inp : List Nat) (outLen outIdx : Nat)
    (out : List Nat), bytesWF inp = true → outIdx = out.length →
    decompressLZ77Go fuel inp outLen outIdx out = decompressLZ77Spec fuel inp outLen out := by
  intro fuel
  induction fuel with
  | zero => intro inp outLen outIdx out _ _; rfl
  | succ fuel ih =>
    intro inp outLen outIdx out hwf hidx
    cases inp with
    | nil =>
      subst hidx
      show (if out.length ≠ outLen then (.error .corruptContent : Except GoErr (List Nat))
            else .ok out) =
        (if out.length = outLen then .ok out else .error .corruptContent)
      by_cases h : out.length = outLen <;> simp [h]
    | cons ctrl inp =>
      obtain ⟨hc, hwf'⟩ := bytesWF_cons hwf
      subst hidx
      unfold decompressLZ77Go decompressLZ77Spec
      have hshift : ctrl >>> 5 = ctrl / 32 := by rw [Nat.shiftRight_eq_div_pow]
      have h31 : ctrl &&& 31 = ctrl % 32 := by
        simpa using Nat.and_pow_two_sub_one_eq_mod ctrl 5
      by_cases hlit : ctrl < 32
      · -- literal run
        have hz : ctrl >>> 5 = 0 := by rw [hshift]; omega
        have hrun : (ctrl &&& 31) + 1 = ctrl + 1 := by rw [h31]; omega
        rw [if_pos hlit, hz]
        simp only [if_pos rfl, hrun]
        by_cases h1 : inp.length < ctrl + 1
        · simp [h1]
        · simp only [if_neg h1]
          by_cases h2 : outLen < out.length + (ctrl + 1)
          · simp [h2]
          · simp only [if_neg h2]
            rw [ih _ _ _ _ (bytesWF_drop _ hwf'), if_pos trivial]
            rw [List.length_append, List.length_take]
            omega
      · -- match
        have hnz : ¬ ctrl >>> 5 = 0 := by rw [hshift]; omega
        rw [if_neg hlit, if_neg hnz]
        rw [lz77Fetch_eq_specFetch]
        cases hfetch : lz77SpecFetch (ctrl >>> 5) inp with
        | error e => simp
        | ok triple =>
          obtain ⟨matchLen, offByte, inp'⟩ := triple
          obtain ⟨hoff, hwfi⟩ := lz77SpecFetch_wf hwf' hfetch
          simp only
          exact lz77_match_step fuel ih ctrl matchLen offByte inp' outLen out hoff hwfi

/-- A successful run of the reference decompressor produces exactly the
declared output length. -/
theorem lz77Spec_ok_length : ∀ (fuel : Nat) (inp : List Nat) (outLen : Nat)
    (out res : List Nat), decompressLZ77Spec fuel inp outLen out = .ok res →
    res.length = outLen := by
  intro fuel
  induction fuel with
  | zero => intro inp outLen out res h; simp [decompressLZ77Spec] at h
  | succ fuel ih =>
    intro inp outLen out res h
    cases inp with
    | nil =>
      unfold decompressLZ77Spec at h
      by_cases hl : out.length = outLen
      · rw [if_pos hl] at h
        injection h with h
        rw [← h]
        exact hl
      · rw [if_neg hl] at h
        exact absurd h (by simp)
    | cons ctrl inp =>
      unfold decompressLZ77Spec at h
      by_cases hlit : ctrl >>> 5 = 0
      · rw [if_pos hlit] at h
        by_cases h1 : inp.length < (ctrl &&& 31) + 1
        · rw [if_pos h1] at h
          exact absurd h (by simp)
        · rw [if_neg h1] at h
          by_cases h2 : outLen < out.length + ((ctrl &&& 31) + 1)
          · rw [if_pos h2] at h
            exact absurd h (by simp)
          · rw [if_neg h2] at h
            exact ih _ _ _ _ h
      · rw [if_neg hlit] at h
        cases hfetch : lz77SpecFetch (ctrl >>> 5) inp with
        | error e =>
          rw [hfetch] at h
          exact absurd h (by simp)
        | ok triple =>
          obtain ⟨matchLen, offByte, inp'⟩ := triple
          rw [hfetch] at h
          simp only at h
          by_cases h2 : outLen < out.length + matchLen
          · rw [if_pos h2] at h
            exact absurd h (by simp)
          · rw [if_neg h2] at h
            by_cases h3 : (out.length : Int) - (((((ctrl &&& 31) <<< 8) ||| offByte) + 1 : Nat) : Int) < 0
            · rw [if_pos h3] at h
              exact absurd h (by simp)
            · rw [if_neg h3] at h
              exact ih _ _ _ _ h

/-- C5: on well-formed byte input, `decompressLZ77(input, n)` follows the
three-instruction reference semantics exactly — it equals the reference
decompressor built from the specification's instruction table (literal
runs for top bits 000, long matches for 111, short matches otherwise,
back-reference `((low5 << 8) | offset) + 1` copied byte by byte, all
overruns and negative back references corrupt) — and it succeeds only
with an output of length exactly `n`. -/
theorem c5_decompress_reference_semantics (inp : List Nat) (outLen : Nat)
    (hwf : bytesWF inp = true) :
    decompressLZ77 inp outLen = decompressLZ77Spec (inp.length + 1) inp outLen [] ∧
    (∀ res, decompressLZ77 inp outLen = Except.ok res → res.length = outLen) := by
  refine ⟨lz77_go_eq_spec (inp.length + 1) inp outLen 0 [] hwf rfl, ?_⟩
  intro res h
  unfold decompressLZ77 at h
  rw [lz77_go_eq_spec (inp.length + 1) inp outLen 0 [] hwf rfl] at h
  exact lz77Spec_ok_length _ _ _ _ _ h

/-- Witness for C5 on the repository's own LZ77 test vector. -/
theorem c5_witness :
    bytesWF lz77Vec = true ∧
    (decompressLZ77 lz77Vec 56 = decompressLZ77Spec (lz77Vec.length + 1) lz77Vec 56 [] ∧
     (∀ res, decompressLZ77 lz77Vec 56 = Except.ok res → res.length = 56)) :=
  ⟨by decide, c5_decompress_reference_semantics lz77Vec 56 (by decide)⟩

/-- C10: `VerifyValueChecksum` succeeds exactly when the payload is at
least 10 bytes, the little-endian `uint16` version at bytes
`[n-10, n-9]` is at most the supported ceiling 12, and the little-endian
CRC-64 in the last 8 bytes equals the CRC-64 of `payload[:n-8]` — with
no exemption for a stored CRC of zero — and any payload shorter than 10
bytes fails with unexpected EOF. -/
theorem c10_verify_value_checksum (payload : List Nat) :
    (VerifyValueChecksum payload = .ok () ↔
      (10 ≤ payload.length ∧
       payload.getD (payload.length - 10) 0 + 256 * payload.getD (payload.length - 9) 0
         ≤ supportedVersion ∧
       le64 (payload.drop (payload.length - 8)) =
         getCRC 0 (payload.take (payload.length - 8)))) ∧
    (payload.length < 10 → VerifyValueChecksum payload = .error .unexpectedEOF) := by
  simp only [VerifyValueChecksum]
  constructor
  · by_cases h1 : payload.length < 10
    · rw [if_pos h1]
      constructor
      · intro h
        exact absurd h (by simp)
      · rintro ⟨h, _⟩
        omega
    · rw [if_neg h1]
      by_cases h2 : payload.getD (payload.length - 10) 0 +
          256 * payload.getD (payload.length - 9) 0 > supportedVersion
      · rw [if_pos h2]
        constructor
        · intro h
          exact absurd h (by simp)
        · rintro ⟨_, hv, _⟩
          omega
      · rw [if_neg h2]
        by_cases h3 : le64 (payload.drop (payload.length - 8)) ≠
            getCRC 0 (payload.take (payload.length - 8))
        · rw [if_pos h3]
          constructor
          · intro h
            exact absurd h (by simp)
          · rintro ⟨_, _, hc⟩
            exact absurd hc h3
        · rw [if_neg h3]
          exact ⟨fun _ => ⟨by omega, by omega, of_not_not h3⟩, fun _ => rfl⟩
  · intro h
    rw [if_pos h]

/-- Witness for C10: the repository's test payload passes the check, and
the empty payload fails with unexpected EOF. -/
theorem c10_witness :
    VerifyValueChecksum c10Payload = .ok () ∧
    VerifyValueChecksum [] = .error .unexpectedEOF :=
  ⟨(c10_verify_value_checksum c10Payload).1.mpr ⟨by decide, by decide, by decide⟩,
   (c10_verify_value_checksum []).2 (by decide)⟩

/-- C7: on the EOF op-code with CRC applicable (version at least 5) the
envelope reader dispatches to the CRC check over the 8 stored
little-endian bytes; a stored CRC of zero is accepted unchecked, a
non-zero stored CRC differing from the CRC-64 accumulated from the
signature byte through the EOF byte fails with bad CRC, and a matching
CRC succeeds — shown in general and end-to-end on a version-11 envelope
with a zero, a correct and a corrupted stored CRC. -/
theorem c7_envelope_crc {σ : Type} (mx : Nat) (H : Handler σ) (s : σ) (all : List Nat)
    (fileLen fuel : Nat) (active hasExp : Bool) (expTime : Int) (b b' : Buf)
    (hb : readUint8 b = .ok (255, b'))
    (hfooter : ((all.drop (9 + fileLen)).take 9).length = 8) :
    (readFileLoop mx H all fileLen true (fuel + 1) active hasExp expTime b s =
      (readFileEOFCase all fileLen).map (fun _ => s) ∧
     (le64 ((all.drop (9 + fileLen)).take 9) = 0 →
       readFileEOFCase all fileLen = .ok ()) ∧
     (le64 ((all.drop (9 + fileLen)).take 9) ≠ 0 →
       getCRC 0 (all.take (9 + fileLen)) ≠ le64 ((all.drop (9 + fileLen)).take 9) →
       readFileEOFCase all fileLen = .error .badCRC) ∧
     (le64 ((all.drop (9 + fileLen)).take 9) ≠ 0 →
       getCRC 0 (all.take (9 + fileLen)) = le64 ((all.drop (9 + fileLen)).take 9) →
       readFileEOFCase all fileLen = .ok ())) ∧
    (readFileModel 0 nopUnit () (envBody ++ leBytes 8 0) = .ok () ∧
     readFileModel 0 nopUnit () (envBody ++ leBytes 8 (getCRC 0 envBody)) = .ok () ∧
     readFileModel 0 nopUnit () (envBody ++ leBytes 8 (getCRC 0 envBody + 1)) =
       .error .badCRC) := by
  refine ⟨⟨?_, ?_, ?_, ?_⟩, by decide, by decide, by decide⟩
  · unfold readFileLoop
    rw [hb]
    simp only [Bind.bind, Except.bind]
    cases h : readFileEOFCase all fileLen <;> simp [Except.map, h]
  · intro h0
    simp only [readFileEOFCase]
    rw [if_neg (by omega), if_neg (by omega), if_pos h0]
  · intro h0 hne
    simp only [readFileEOFCase]
    rw [if_neg (by omega), if_neg (by omega), if_neg h0, if_pos hne]
  · intro h0 heq
    simp only [readFileEOFCase]
    rw [if_neg (by omega), if_neg (by omega), if_neg h0,
        if_neg (by rw [heq]; exact fun h => h rfl)]

/-- Witness for C7 at a concrete EOF byte and a concrete 8-byte footer. -/
theorem c7_witness :
    readUint8 (Buf.ofBytes [255]) = .ok (255, ⟨[255], 1⟩) ∧
    (((envBody ++ leBytes 8 0).drop (9 + 1)).take 9).length = 8 ∧
    ((readFileLoop 0 nopUnit (envBody ++ leBytes 8 0) 1 true 1 true false 0
        (Buf.ofBytes [255]) () =
        (readFileEOFCase (envBody ++ leBytes 8 0) 1).map (fun _ => ()) ∧
      (le64 (((envBody ++ leBytes 8 0).drop (9 + 1)).take 9) = 0 →
        readFileEOFCase (envBody ++ leBytes 8 0) 1 = .ok ()) ∧
      (le64 (((envBody ++ leBytes 8 0).drop (9 + 1)).take 9) ≠ 0 →
        getCRC 0 ((envBody ++ leBytes 8 0).take (9 + 1)) ≠
          le64 (((envBody ++ leBytes 8 0).drop (9 + 1)).take 9) →
        readFileEOFCase (envBody ++ leBytes 8 0) 1 = .error .badCRC) ∧
      (le64 (((envBody ++ leBytes 8 0).drop (9 + 1)).take 9) ≠ 0 →
        getCRC 0 ((envBody ++ leBytes 8 0).take (9 + 1)) =
          le64 (((envBody ++ leBytes 8 0).drop (9 + 1)).take 9) →
        readFileEOFCase (envBody ++ leBytes 8 0) 1 = .ok ())) ∧
     (readFileModel 0 nopUnit () (envBody ++ leBytes 8 0) = .ok () ∧
      readFileModel 0 nopUnit () (envBody ++ leBytes 8 (getCRC 0 envBody)) = .ok () ∧
      readFileModel 0 nopUnit () (envBody ++ leBytes 8 (getCRC 0 envBody + 1)) =
        .error .badCRC)) :=
  ⟨by decide, by decide,
   c7_envelope_crc 0 nopUnit () (envBody ++ leBytes 8 0) 1 0 true false 0
     (Buf.ofBytes [255]) ⟨[255], 1⟩ (by decide) (by decide)⟩

/-- C2: a consumer PEL ID absent from the stream's entries does NOT make
the stream decode fail. On `sBad` (consumer pending ID (9,9), no such
entry) the decode succeeds and silently delivers no group, although the
group resolution itself computes the corrupt-snapshot (illegal state)
error — it is discarded at the `cb(group)` call site. The well-formed
`sG` decodes to its group with pending values filled, showing the same
path working. -/
theorem c2_missing_pel_id_swallowed :
    (readValue 0 groupCollector [107] (15 :: bytesBad) []).map (fun p => p.2) = .ok [] ∧
    resolveGroup [(⟨9, 9⟩, none)] (fun s g => (s ++ [g], none))
      ([] : List StreamConsumerGroup)
      ⟨[103], ⟨1, 0⟩, 0, [⟨[99], 5, 0, [⟨⟨⟨9, 9⟩, none⟩, 7, 1⟩]⟩]⟩ =
      ([], some .illegalStatePEL) ∧
    (readValue 0 groupCollector [107] (15 :: bytesG) []).map (fun p => p.2) =
      .ok [⟨[103], ⟨2, 0⟩, 0, [⟨[99], 5, 0,
        [⟨⟨⟨1, 0⟩, some [[102], [118]]⟩, 7, 1⟩,
         ⟨⟨⟨2, 0⟩, some [[102], [119]]⟩, 8, 2⟩]⟩]⟩] :=
  ⟨by decide, by decide, by decide⟩

/-- C3: an error returned by the stream entry callback or the stream
consumer-group callback does NOT abort the stream decode. The handler
whose stream callbacks always return an error still decodes the stream
`sG` successfully: both callback results are discarded by the decoder. -/
theorem c3_stream_callback_errors_dropped :
    (abortingStream.streamEntryHandler () [107]).2 () ⟨⟨1, 0⟩, some [[102], [118]]⟩ =
      ((), some (.handlerAbort 1)) ∧
    (readValue 0 abortingStream [107] (15 :: bytesG) ()).map (fun p => p.2) = .ok () :=
  ⟨by decide, by decide⟩

/-- C8: the envelope op-code loop rejects tags 24 (HashMetadata) and 25
(HashListpackEx) as unknown encoding types (its gate is `t > 21`), even
though the value decoder itself accepts a tag-24 record — contradicting
the external-interface table that assigns 24 and 25. -/
theorem c8_envelope_rejects_assigned_tags :
    readFileModel 0 nopUnit () snapC8 = .error (.unknownEncodingType 24) ∧
    readFileModel 0 nopUnit ()
      ([82, 69, 68, 73, 83, 48, 48, 48, 51] ++ [25, 255]) =
      .error (.unknownEncodingType 25) ∧
    (readValue 0 nopUnit [107] (24 :: hmPayload) ()).map (fun p => p.2) = .ok () :=
  ⟨by decide, by decide, by decide⟩

/-- C9: the verifier is NOT monotone in its limits. With the strictly
larger PEL limit (2 instead of 1, every other limit equal and positive)
verification of `snapC9` flips from success to a max-data-size failure:
under the small PEL limit the per-group size error is swallowed before
the group's size is added to the running data size. -/
theorem c9_verifier_not_monotone :
    ((100 : Int) ≤ 100 ∧ (200 : Int) ≤ 200 ∧ (10 : Int) ≤ 10 ∧ (1 : Int) ≤ 2 ∧
     (0 : Int) < 100 ∧ (0 : Int) < 200 ∧ (0 : Int) < 10 ∧ (0 : Int) < 1) ∧
    verifyFileModel snapC9 ⟨100, 200, 10, 1⟩ false = .ok ⟨39, 0⟩ ∧
    verifyFileModel snapC9 ⟨100, 200, 10, 2⟩ false =
      .error (.maxDataSizeExceeded 149 100) :=
  ⟨by decide, by decide, by decide⟩

/-- C4: the entry readers do NOT propagate the unexpected-EOF failure of
a read that crosses the known end. On the one-byte buffer `[0xF2]` (a
listpack int24 entry header with its three value bytes cut off), the
underlying `Get` fails with unexpected EOF, yet `readListpackEntry`
succeeds with an empty entry; likewise `readZiplistEntry` on `[0, 0x40]`
(a 14-bit string length header with its low byte cut off). This refutes
the claim that every mid-record truncation yields an error. -/
theorem c4_entry_readers_swallow_eof :
    Buf.get ⟨[242], 1⟩ 3 = .error .unexpectedEOF ∧
    readListpackEntry (Buf.ofBytes [242]) = .ok ([], ⟨[242], 1⟩) ∧
    Buf.get ⟨[0, 64], 2⟩ 1 = .error .unexpectedEOF ∧
    readZiplistEntry (Buf.ofBytes [0, 64]) = .ok ([], ⟨[0, 64], 2⟩) :=
  ⟨by decide, by decide, by decide, by decide⟩

/-! Round-trip development for the Writer's image (claim C1): segment
reading lemmas, the writer-step facts, and the per-type encode/decode
inversions. -/

theorem intCount_small {n : Nat} (h : n < 2 ^ 63) : intCount n = n := by
  unfold intCount toInt64
  rw [Nat.mod_eq_of_lt (by omega), if_pos h]
  simp

theorem loopCount_small {n : Nat} (h : n < 2 ^ 63) : loopCount n = n := by
  unfold loopCount toInt64
  rw [Nat.mod_eq_of_lt (by omega), if_pos h]
  simp

theorem buf_get_seg (pre seg post : List Nat) (n : Nat) (hn : seg.length = n) :
    Buf.get ⟨pre ++ seg ++ post, pre.length⟩ n =
      .ok (seg, ⟨pre ++ seg ++ post, pre.length + n⟩) := by
  unfold Buf.get
  rw [if_neg (by simp only [List.length_append]; omega)]
  subst hn
  rw [List.append_assoc, List.drop_left, List.take_left]

theorem readUint8_seg (pre post : List Nat) (v : Nat) :
    readUint8 ⟨pre ++ [v] ++ post, pre.length⟩ =
      .ok (v, ⟨pre ++ [v] ++ post, pre.length + 1⟩) := by
  unfold readUint8
  rw [buf_get_seg pre [v] post 1 rfl]
  rfl

theorem leBytes_two (v : Nat) : leBytes 2 v = [v % 256, v / 256 % 256] := by
  simp [leBytes, List.range_succ]

theorem beBytes_two (v : Nat) : beBytes 2 v = [v / 256 % 256, v % 256] := by
  simp [beBytes, leBytes_two]

theorem leBytes_four (v : Nat) : leBytes 4 v =
    [v % 256, v / 256 % 256, v / 256 ^ 2 % 256, v / 256 ^ 3 % 256] := by
  simp [leBytes, List.range_succ]

theorem beBytes_four (v : Nat) : beBytes 4 v =
    [v / 256 ^ 3 % 256, v / 256 ^ 2 % 256, v / 256 % 256, v % 256] := by
  simp [beBytes, leBytes_four]

theorem leBytes_eight (v : Nat) : leBytes 8 v =
    [v % 256, v / 256 % 256, v / 256 ^ 2 % 256, v / 256 ^ 3 % 256,
     v / 256 ^ 4 % 256, v / 256 ^ 5 % 256, v / 256 ^ 6 % 256, v / 256 ^ 7 % 256] := by
  simp [leBytes, List.range_succ]

theorem beBytes_eight (v : Nat) : beBytes 8 v =
    [v / 256 ^ 7 % 256, v / 256 ^ 6 % 256, v / 256 ^ 5 % 256, v / 256 ^ 4 % 256,
     v / 256 ^ 3 % 256, v / 256 ^ 2 % 256, v / 256 % 256, v % 256] := by
  simp [beBytes, leBytes_eight]

theorem readUint32BE_seg (pre post : List Nat) (v : Nat) (hv : v < 2 ^ 32) :
    readUint32BE ⟨pre ++ beBytes 4 v ++ post, pre.length⟩ =
      .ok (v, ⟨pre ++ beBytes 4 v ++ post, pre.length + 4⟩) := by
  unfold readUint32BE
  rw [buf_get_seg pre (beBytes 4 v) post 4 (by simp [beBytes, leBytes])]
  simp only [Bind.bind, Except.bind, beBytes_four, List.getD_cons_zero,
    List.getD_cons_succ]
  simp only [Except.ok.injEq, Prod.mk.injEq]
  exact ⟨by omega, trivial⟩

theorem readUint64BE_seg (pre post : List Nat) (v : Nat) (hv : v < 2 ^ 64) :
    readUint64BE ⟨pre ++ beBytes 8 v ++ post, pre.length⟩ =
      .ok (v, ⟨pre ++ beBytes 8 v ++ post, pre.length + 8⟩) := by
  unfold readUint64BE
  rw [buf_get_seg pre (beBytes 8 v) post 8 (by simp [beBytes, leBytes])]
  simp only [Bind.bind, Except.bind, beBytes_eight, List.getD_cons_zero,
    List.getD_cons_succ]
  simp only [Except.ok.injEq, Prod.mk.injEq]
  exact ⟨by omega, trivial⟩

theorem readUint64_seg (pre post : List Nat) (v : Nat) (hv : v < 2 ^ 64) :
    readUint64 ⟨pre ++ leBytes 8 v ++ post, pre.length⟩ =
      .ok (v, ⟨pre ++ leBytes 8 v ++ post, pre.length + 8⟩) := by
  unfold readUint64
  rw [buf_get_seg pre (leBytes 8 v) post 8 (by simp [leBytes])]
  simp only [Bind.bind, Except.bind, leBytes_eight, List.getD_cons_zero,
    List.getD_cons_succ]
  simp only [Except.ok.injEq, Prod.mk.injEq]
  exact ⟨by omega, trivial⟩

theorem write_ok_data {w w' : Writer} {bs : List Nat} (hwf : w.pos = w.data.length)
    (h : w.write bs = .ok w') :
    w'.data = w.data ++ bs ∧ w'.pos = w'.data.length ∧ w'.limit = w.limit ∧
      w'.pos ≤ w.limit := by
  unfold Writer.write at h
  by_cases hl : w.limit < w.pos + bs.length
  · rw [if_pos hl] at h
    exact absurd h (by simp)
  · rw [if_neg hl] at h
    injection h with h
    subst h
    refine ⟨?_, ?_, rfl, by simpa using hl⟩
    · simp only [overwriteAt, hwf]
      rw [List.take_length, List.drop_eq_nil_of_le (by omega), List.append_nil]
    · simp only [overwriteAt, hwf]
      rw [List.take_length, List.drop_eq_nil_of_le (by omega), List.append_nil]
      simp



theorem writeLen_read {w w' : Writer} {n : Nat} (hwf : w.pos = w.data.length)
    (hn : n < 2 ^ 64) (h : w.writeLen n = .ok w') :
    w'.pos = w'.data.length ∧ w'.limit = w.limit ∧ (∃ seg, w'.data = w.data ++ seg) ∧
    ∀ post, readLen ⟨w'.data ++ post, w.data.length⟩ =
      .ok (n, false, ⟨w'.data ++ post, w'.data.length⟩) := by
  unfold Writer.writeLen at h
  by_cases h1 : n ≤ 63
  · rw [if_pos h1] at h
    unfold Writer.writeUint8 at h
    obtain ⟨hd, hp, hl, _⟩ := write_ok_data hwf h
    rw [Nat.mod_eq_of_lt (by omega)] at hd
    refine ⟨hp, hl, ⟨_, hd⟩, ?_⟩
    intro post
    unfold readLen
    rw [hd, readUint8_seg w.data post n]
    simp only [Bind.bind, Except.bind]
    rw [and_192_eq _ (by omega), if_pos (show n / 64 * 64 = 0 by omega)]
    have hval : n &&& 63 = n := by rw [and_63_eq]; omega
    simp [hval]
  · rw [if_neg h1] at h
    by_cases h2 : n ≤ 16383
    · rw [if_pos h2] at h
      unfold Writer.writeUint16BE at h
      obtain ⟨hd, hp, hl, _⟩ := write_ok_data hwf h
      have hor : n ||| 16384 = 16384 + n := by
        rw [Nat.lor_comm]
        simpa using (Nat.mul_add_lt_is_or (show n < 2 ^ 14 by omega) 1).symm
      rw [hor, beBytes_two] at hd
      refine ⟨hp, hl, ⟨_, hd⟩, ?_⟩
      intro post
      unfold readLen
      rw [hd]
      have hsplit : w.data ++ [(16384 + n) / 256 % 256, (16384 + n) % 256] ++ post =
          w.data ++ [(16384 + n) / 256 % 256] ++ ([(16384 + n) % 256] ++ post) := by
        simp
      rw [hsplit, readUint8_seg]
      simp only [Bind.bind, Except.bind]
      rw [and_192_eq _ (by omega), if_neg (by omega), if_pos (by omega)]
      have hlen1 : w.data.length + 1 = (w.data ++ [(16384 + n) / 256 % 256]).length := by
        simp
      rw [hlen1, ← List.append_assoc,
          readUint8_seg (w.data ++ [(16384 + n) / 256 % 256]) post ((16384 + n) % 256)]
      have hval : ((16384 + n) / 256 % 256 &&& 63) <<< 8 ||| (16384 + n) % 256 = n := by
        rw [and_63_eq, Nat.shiftLeft_eq, Nat.mul_comm,
            ← Nat.mul_add_lt_is_or (show (16384 + n) % 256 < 2 ^ 8 by omega)]
        omega
      simp [hval]
    · rw [if_neg h2] at h
      by_cases h3 : n ≤ 2 ^ 32 - 1
      · rw [if_pos h3] at h
        cases hw1 : w.writeUint8 128 with
        | error e =>
          rw [hw1] at h
          exact absurd h (by simp [Bind.bind, Except.bind])
        | ok w1 =>
          rw [hw1] at h
          simp only [Bind.bind, Except.bind] at h
          unfold Writer.writeUint8 at hw1
          obtain ⟨hd1, hp1, hl1, _⟩ := write_ok_data hwf hw1
          norm_num at hd1
          unfold Writer.writeUint32BE at h
          obtain ⟨hd2, hp2, hl2, _⟩ := write_ok_data hp1 h
          rw [hd1] at hd2
          refine ⟨hp2, by rw [hl2, hl1], ⟨_, by rw [hd2, List.append_assoc]⟩, ?_⟩
          intro post
          unfold readLen
          rw [hd2, List.append_assoc (w.data ++ [128])]
          rw [readUint8_seg w.data (beBytes 4 n ++ post) 128]
          simp only [Bind.bind, Except.bind]
          rw [and_192_eq _ (by omega)]
          rw [if_neg (by omega), if_neg (by omega), if_pos (by omega)]
          simp only [if_true]
          have hlen1 : w.data.length + 1 = (w.data ++ [128]).length := by simp
          rw [hlen1, ← List.append_assoc,
              readUint32BE_seg (w.data ++ [128]) post n (by omega)]
          simp [beBytes, leBytes]
      · rw [if_neg h3] at h
        cases hw1 : w.writeUint8 129 with
        | error e =>
          rw [hw1] at h
          exact absurd h (by simp [Bind.bind, Except.bind])
        | ok w1 =>
          rw [hw1] at h
          simp only [Bind.bind, Except.bind] at h
          unfold Writer.writeUint8 at hw1
          obtain ⟨hd1, hp1, hl1, _⟩ := write_ok_data hwf hw1
          norm_num at hd1
          unfold Writer.writeUint64BE at h
          obtain ⟨hd2, hp2, hl2, _⟩ := write_ok_data hp1 h
          rw [hd1] at hd2
          refine ⟨hp2, by rw [hl2, hl1], ⟨_, by rw [hd2, List.append_assoc]⟩, ?_⟩
          intro post
          unfold readLen
          rw [hd2, List.append_assoc (w.data ++ [129])]
          rw [readUint8_seg w.data (beBytes 8 n ++ post) 129]
          simp only [Bind.bind, Except.bind]
          rw [and_192_eq _ (by omega)]
          rw [if_neg (by omega), if_neg (by omega), if_pos (by omega),
              if_neg (by omega)]
          simp only [if_true]
          have hlen1 : w.data.length + 1 = (w.data ++ [129]).length := by simp
          rw [hlen1, ← List.append_assoc,
              readUint64BE_seg (w.data ++ [129]) post n hn]
          simp [beBytes, leBytes]



theorem writeLen_basic {w w' : Writer} {n : Nat} (hwf : w.pos = w.data.length)
    (h : w.writeLen n = .ok w') :
    w'.pos = w'.data.length ∧ w'.limit = w.limit ∧
    w.data.length < w'.data.length ∧ w'.data.length ≤ w.limit ∧
    ∃ seg, w'.data = w.data ++ seg := by
  unfold Writer.writeLen at h
  by_cases h1 : n ≤ 63
  · rw [if_pos h1] at h
    unfold Writer.writeUint8 at h
    obtain ⟨hd, hp, hl, hb⟩ := write_ok_data hwf h
    exact ⟨hp, hl, by simp [hd], by omega, _, hd⟩
  · rw [if_neg h1] at h
    by_cases h2 : n ≤ 16383
    · rw [if_pos h2] at h
      unfold Writer.writeUint16BE at h
      obtain ⟨hd, hp, hl, hb⟩ := write_ok_data hwf h
      exact ⟨hp, hl, by simp [hd, beBytes_two], by omega, _, hd⟩
    · rw [if_neg h2] at h
      by_cases h3 : n ≤ 2 ^ 32 - 1
      · rw [if_pos h3] at h
        cases hw1 : w.writeUint8 128 with
        | error e =>
          rw [hw1] at h
          exact absurd h (by simp [Bind.bind, Except.bind])
        | ok w1 =>
          rw [hw1] at h
          simp only [Bind.bind, Except.bind] at h
          unfold Writer.writeUint8 at hw1
          obtain ⟨hd1, hp1, hl1, _⟩ := write_ok_data hwf hw1
          unfold Writer.writeUint32BE at h
          obtain ⟨hd2, hp2, hl2, hb2⟩ := write_ok_data hp1 h
          refine ⟨hp2, by rw [hl2, hl1], ?_, by omega, _,
            by rw [hd2, hd1, List.append_assoc]⟩
          rw [hd2, hd1]
          simp
      · rw [if_neg h3] at h
        cases hw1 : w.writeUint8 129 with
        | error e =>
          rw [hw1] at h
          exact absurd h (by simp [Bind.bind, Except.bind])
        | ok w1 =>
          rw [hw1] at h
          simp only [Bind.bind, Except.bind] at h
          unfold Writer.writeUint8 at hw1
          obtain ⟨hd1, hp1, hl1, _⟩ := write_ok_data hwf hw1
          unfold Writer.writeUint64BE at h
          obtain ⟨hd2, hp2, hl2, hb2⟩ := write_ok_data hp1 h
          refine ⟨hp2, by rw [hl2, hl1], ?_, by omega, _,
            by rw [hd2, hd1, List.append_assoc]⟩
          rw [hd2, hd1]
          simp

theorem writeString_read {w w' : Writer} {s : Str} (mx : Nat)
    (hwf : w.pos = w.data.length) (hlim : w.limit < 2 ^ 63)
    (h : w.writeString s = .ok w') :
    w'.pos = w'.data.length ∧ w'.limit = w.limit ∧
    w.data.length < w'.data.length ∧ w'.data.length ≤ w.limit ∧
    (∃ seg, w'.data = w.data ++ seg) ∧
    ∀ post, readString mx ⟨w'.data ++ post, w.data.length⟩ =
      .ok (s, ⟨w'.data ++ post, w'.data.length⟩) := by
  unfold Writer.writeString at h
  cases hw1 : w.writeLen s.length with
  | error e =>
    rw [hw1] at h
    exact absurd h (by simp [Bind.bind, Except.bind])
  | ok w1 =>
    rw [hw1] at h
    simp only [Bind.bind, Except.bind] at h
    obtain ⟨hp1, hl1, hgrow1, hup1, _⟩ := writeLen_basic hwf hw1
    have hsb : s.length ≤ w1.limit := by
      unfold Writer.write at h
      by_cases hc : w1.limit < w1.pos + s.length
      · rw [if_pos hc] at h
        exact absurd h (by simp)
      · omega
    have hslt : s.length < 2 ^ 63 := by omega
    obtain ⟨hp0, hl0, hseg0, hread⟩ := writeLen_read hwf (by omega) hw1
    obtain ⟨hd2, hp2, hl2, hb2⟩ := write_ok_data hp1 h
    refine ⟨hp2, by rw [hl2, hl1], by simp [hd2]; omega, by omega, ?_, ?_⟩
    · obtain ⟨seg, hseg⟩ := hseg0
      exact ⟨seg ++ s, by rw [hd2, hseg, List.append_assoc]⟩
    intro post
    unfold readString
    rw [hd2, List.append_assoc w1.data s post, hread (s ++ post)]
    simp only [Bind.bind, Except.bind]
    rw [if_neg (by simp)]
    rw [intCount_small hslt]
    unfold readBytes
    rw [← List.append_assoc, buf_get_seg w1.data s post s.length rfl]
    simp [hd2]



theorem writeStringsLoop_read (mx : Nat) : ∀ (l : List Str) (w w' : Writer)
    (acc : List Str), w.pos = w.data.length → w.limit < 2 ^ 63 →
    writeStringsLoop w l = .ok w' →
    w'.pos = w'.data.length ∧ w'.limit = w.limit ∧
    w.data.length + l.length ≤ w'.data.length ∧
    w'.data.length ≤ max w.data.length w.limit ∧
    (∃ seg, w'.data = w.data ++ seg) ∧
    ∀ post, readListLoop mx (fun acc e => (acc ++ [e], none)) l.length
        ⟨w'.data ++ post, w.data.length⟩ acc =
      .ok (⟨w'.data ++ post, w'.data.length⟩, acc ++ l) := by
  intro l
  induction l with
  | nil =>
    intro w w' acc hwf hlim h
    unfold writeStringsLoop at h
    injection h with h
    subst h
    refine ⟨hwf, rfl, by simp, le_max_left _ _, ⟨[], by simp⟩, ?_⟩
    intro post
    unfold readListLoop
    simp [hwf]
  | cons s rest ih =>
    intro w w' acc hwf hlim h
    unfold writeStringsLoop at h
    cases hw1 : w.writeString s with
    | error e =>
      rw [hw1] at h
      exact absurd h (by simp [Bind.bind, Except.bind])
    | ok w1 =>
      rw [hw1] at h
      simp only [Bind.bind, Except.bind] at h
      obtain ⟨hp1, hl1, hgrow1, hup1, ⟨seg1, hseg1⟩, hread1⟩ :=
        writeString_read mx hwf hlim hw1
      obtain ⟨hp2, hl2, hgrow2, hup2, ⟨seg2, hseg2⟩, hread2⟩ :=
        ih w1 w' (acc ++ [s]) hp1 (by omega) h
      refine ⟨hp2, by omega, by simp only [List.length_cons]; omega, by omega,
        ⟨seg1 ++ seg2,
        by rw [hseg2, hseg1, List.append_assoc]⟩, ?_⟩
      intro post
      show (do
        let (elem, b) ← readString mx ⟨w'.data ++ post, w.data.length⟩
        match (fun acc e => (acc ++ [e], none)) acc elem with
        | (_, some e) => Except.error e
        | (s, none) =>
          readListLoop mx (fun acc e => (acc ++ [e], none)) rest.length b s) = _
      rw [hseg2, List.append_assoc, hread1 (seg2 ++ post)]
      simp only [Bind.bind, Except.bind]
      rw [← List.append_assoc, ← hseg2, hread2 post]
      simp

theorem writeList_read (mx : Nat) (l : List Str) (w w' : Writer)
    (hwf : w.pos = w.data.length) (hlim : w.limit < 2 ^ 63)
    (h : w.writeList l = .ok w') :
    ∀ post, readList mx (fun acc e => (acc ++ [e], none))
        ⟨w'.data ++ post, w.data.length⟩ [] =
      .ok (l.length, ⟨w'.data ++ post, w'.data.length⟩, l) := by
  unfold Writer.writeList at h
  cases hw1 : w.writeLen l.length with
  | error e =>
    rw [hw1] at h
    exact absurd h (by simp [Bind.bind, Except.bind])
  | ok w1 =>
    rw [hw1] at h
    simp only [Bind.bind, Except.bind] at h
    obtain ⟨hp1, hl1, hgrow1, hup1, _⟩ := writeLen_basic hwf hw1
    obtain ⟨hp2, hl2, hgrow2, hup2, ⟨seg2, hseg2⟩, hread2⟩ :=
      writeStringsLoop_read mx l w1 w' [] hp1 (by omega) h
    have hn : l.length < 2 ^ 64 := by omega
    obtain ⟨_, _, _, hreadLen⟩ := writeLen_read hwf hn hw1
    intro post
    unfold readList
    rw [hseg2, List.append_assoc, hreadLen (seg2 ++ post)]
    simp only [Bind.bind, Except.bind]
    rw [loopCount_small (by omega), ← List.append_assoc, ← hseg2, hread2 post]
    simp

theorem writeSet_read (mx : Nat) (l : List Str) (w w' : Writer)
    (hwf : w.pos = w.data.length) (hlim : w.limit < 2 ^ 63)
    (h : w.writeSet l = .ok w') :
    ∀ post, readSet mx (fun acc e => (acc ++ [e], none))
        ⟨w'.data ++ post, w.data.length⟩ [] =
      .ok (⟨w'.data ++ post, w'.data.length⟩, l) := by
  unfold Writer.writeSet at h
  cases hw1 : w.writeLen l.length with
  | error e =>
    rw [hw1] at h
    exact absurd h (by simp [Bind.bind, Except.bind])
  | ok w1 =>
    rw [hw1] at h
    simp only [Bind.bind, Except.bind] at h
    obtain ⟨hp1, hl1, hgrow1, hup1, _⟩ := writeLen_basic hwf hw1
    obtain ⟨hp2, hl2, hgrow2, hup2, ⟨seg2, hseg2⟩, hread2⟩ :=
      writeStringsLoop_read mx l w1 w' [] hp1 (by omega) h
    have hn : l.length < 2 ^ 64 := by omega
    obtain ⟨_, _, _, hreadLen⟩ := writeLen_read hwf hn hw1
    intro post
    unfold readSet
    rw [hseg2, List.append_assoc, hreadLen (seg2 ++ post)]
    simp only [Bind.bind, Except.bind]
    rw [loopCount_small (by omega), ← List.append_assoc, ← hseg2, hread2 post]
    simp



theorem writeZsetLoop_read (mx : Nat) : ∀ (l : List (Str × Nat)) (w w' : Writer)
    (acc : List (Str × Nat)), w.pos = w.data.length → w.limit < 2 ^ 63 →
    (∀ p ∈ l, p.2 < 2 ^ 64) → writeZsetLoop w l = .ok w' →
    w'.pos = w'.data.length ∧ w'.limit = w.limit ∧
    w.data.length + l.length ≤ w'.data.length ∧
    w'.data.length ≤ max w.data.length w.limit ∧
    (∃ seg, w'.data = w.data ++ seg) ∧
    ∀ post, readZset2Loop mx (fun acc e sc => (acc ++ [(e, sc)], none)) l.length
        ⟨w'.data ++ post, w.data.length⟩ acc =
      .ok (⟨w'.data ++ post, w'.data.length⟩, acc ++ l) := by
  intro l
  induction l with
  | nil =>
    intro w w' acc hwf hlim _ h
    unfold writeZsetLoop at h
    injection h with h
    subst h
    refine ⟨hwf, rfl, by simp, le_max_left _ _, ⟨[], by simp⟩, ?_⟩
    intro post
    unfold readZset2Loop
    simp [hwf]
  | cons p rest ih =>
    obtain ⟨elem, bits⟩ := p
    intro w w' acc hwf hlim hb h
    unfold writeZsetLoop at h
    cases hw1 : w.writeString elem with
    | error e =>
      rw [hw1] at h
      exact absurd h (by simp [Bind.bind, Except.bind])
    | ok w1 =>
      rw [hw1] at h
      simp only [Bind.bind, Except.bind] at h
      cases hw2 : w1.writeUint64 bits with
      | error e =>
        rw [hw2] at h
        exact absurd h (by simp [Bind.bind, Except.bind])
      | ok w2 =>
        rw [hw2] at h
        simp only [Bind.bind, Except.bind] at h
        obtain ⟨hp1, hl1, hgrow1, hup1, ⟨seg1, hseg1⟩, hread1⟩ :=
          writeString_read mx hwf hlim hw1
        unfold Writer.writeUint64 at hw2
        obtain ⟨hd2, hp2, hl2, hb2⟩ := write_ok_data hp1 hw2
        obtain ⟨hp3, hl3, hgrow3, hup3, ⟨seg3, hseg3⟩, hread3⟩ :=
          ih w2 w' (acc ++ [(elem, bits)]) hp2 (by omega)
            (fun q hq => hb q (List.mem_cons_of_mem _ hq)) h
        have hbits : bits < 2 ^ 64 := hb _ (List.mem_cons_self _ _)
        refine ⟨hp3, by omega, ?_, ?_, ⟨seg1 ++ (leBytes 8 bits ++ seg3),
          by rw [hseg3, hd2, hseg1, List.append_assoc, List.append_assoc]⟩, ?_⟩
        · have : (8 : Nat) = (leBytes 8 bits).length := by simp [leBytes]
          simp only [List.length_cons]
          have hd2l : w2.data.length = w1.data.length + 8 := by
            rw [hd2]
            simp [leBytes]
          omega
        · have hd2l : w2.data.length = w1.data.length + 8 := by
            rw [hd2]
            simp [leBytes]
          omega
        intro post
        show (do
          let (elem, b) ← readString mx ⟨w'.data ++ post, w.data.length⟩
          let (bits, b) ← readUint64 b
          match (fun acc e sc => (acc ++ [(e, sc)], none)) acc elem bits with
          | (_, some e) => Except.error e
          | (s, none) =>
            readZset2Loop mx (fun acc e sc => (acc ++ [(e, sc)], none))
              rest.length b s) = _
        have h1 := hread1 (leBytes 8 bits ++ (seg3 ++ post))
        have h2 := readUint64_seg w1.data (seg3 ++ post) bits hbits
        have h3 := hread3 post
        rw [hseg3, hd2] at h3 ⊢
        rw [List.append_assoc (w1.data ++ leBytes 8 bits) seg3 post] at h3 ⊢
        rw [List.append_assoc w1.data (leBytes 8 bits) (seg3 ++ post)] at h3 ⊢
        rw [h1]
        simp only [Bind.bind, Except.bind]
        rw [List.append_assoc w1.data (leBytes 8 bits) (seg3 ++ post)] at h2
        have hlen2 : (w1.data ++ leBytes 8 bits).length = w1.data.length + 8 := by
          simp [leBytes]
        rw [hlen2] at h3
        rw [h2]
        simp only [Bind.bind, Except.bind]
        rw [h3]
        simp

theorem writeHashLoop_read (mx : Nat) : ∀ (l : List (Str × Str)) (w w' : Writer)
    (acc : List (Str × Str)), w.pos = w.data.length → w.limit < 2 ^ 63 →
    writeHashLoop w l = .ok w' →
    w'.pos = w'.data.length ∧ w'.limit = w.limit ∧
    w.data.length + l.length ≤ w'.data.length ∧
    w'.data.length ≤ max w.data.length w.limit ∧
    (∃ seg, w'.data = w.data ++ seg) ∧
    ∀ post, readHashLoop mx (fun acc f v => (acc ++ [(f, v)], none)) l.length
        ⟨w'.data ++ post, w.data.length⟩ acc =
      .ok (⟨w'.data ++ post, w'.data.length⟩, acc ++ l) := by
  intro l
  induction l with
  | nil =>
    intro w w' acc hwf hlim h
    unfold writeHashLoop at h
    injection h with h
    subst h
    refine ⟨hwf, rfl, by simp, le_max_left _ _, ⟨[], by simp⟩, ?_⟩
    intro post
    unfold readHashLoop
    simp [hwf]
  | cons p rest ih =>
    obtain ⟨field, value⟩ := p
    intro w w' acc hwf hlim h
    unfold writeHashLoop at h
    cases hw1 : w.writeString field with
    | error e =>
      rw [hw1] at h
      exact absurd h (by simp [Bind.bind, Except.bind])
    | ok w1 =>
      rw [hw1] at h
      simp only [Bind.bind, Except.bind] at h
      cases hw2 : w1.writeString value with
      | error e =>
        rw [hw2] at h
        exact absurd h (by simp [Bind.bind, Except.bind])
      | ok w2 =>
        rw [hw2] at h
        simp only [Bind.bind, Except.bind] at h
        obtain ⟨hp1, hl1, hgrow1, hup1, ⟨seg1, hseg1⟩, hread1⟩ :=
          writeString_read mx hwf hlim hw1
        obtain ⟨hp2, hl2, hgrow2, hup2, ⟨seg2, hseg2⟩, hread2⟩ :=
          writeString_read mx hp1 (by omega) hw2
        obtain ⟨hp3, hl3, hgrow3, hup3, ⟨seg3, hseg3⟩, hread3⟩ :=
          ih w2 w' (acc ++ [(field, value)]) hp2 (by omega) h
        refine ⟨hp3, by omega, by simp only [List.length_cons]; omega, by omega,
          ⟨seg1 ++ (seg2 ++ seg3),
            by rw [hseg3, hseg2, hseg1, List.append_assoc, List.append_assoc]⟩, ?_⟩
        intro post
        show (do
          let (field, b) ← readString mx ⟨w'.data ++ post, w.data.length⟩
          let (value, b) ← readString mx b
          match (fun acc f v => (acc ++ [(f, v)], none)) acc field value with
          | (_, some e) => Except.error e
          | (s, none) =>
            readHashLoop mx (fun acc f v => (acc ++ [(f, v)], none))
              rest.length b s) = _
        have h1 := hread1 (seg2 ++ (seg3 ++ post))
        have h2 := hread2 (seg3 ++ post)
        have h3 := hread3 post
        rw [hseg3, hseg2] at h3 ⊢
        rw [List.append_assoc (w1.data ++ seg2) seg3 post] at h3 ⊢
        rw [List.append_assoc w1.data seg2 (seg3 ++ post)] at h3 ⊢
        rw [hseg2] at h2
        rw [List.append_assoc w1.data seg2 (seg3 ++ post)] at h2
        rw [h1]
        simp only [Bind.bind, Except.bind]
        rw [h2]
        simp only [Bind.bind, Except.bind]
        rw [h3]
        simp



theorem writeZset_read (mx : Nat) (elements : List Str) (scores : List Nat)
    (w w' : Writer) (hwf : w.pos = w.data.length) (hlim : w.limit < 2 ^ 63)
    (hsc : ∀ sc ∈ scores, sc < 2 ^ 64) (h : w.writeZset elements scores = .ok w') :
    ∀ post, readZset2 mx (fun acc e sc => (acc ++ [(e, sc)], none))
        ⟨w'.data ++ post, w.data.length⟩ [] =
      .ok (elements.length, ⟨w'.data ++ post, w'.data.length⟩,
        elements.zip scores) := by
  unfold Writer.writeZset at h
  by_cases hne : elements.length ≠ scores.length
  · rw [if_pos hne] at h
    exact absurd h (by simp)
  · rw [if_neg hne] at h
    have heq : elements.length = scores.length := of_not_not hne
    cases hw1 : w.writeLen elements.length with
    | error e =>
      rw [hw1] at h
      exact absurd h (by simp [Bind.bind, Except.bind])
    | ok w1 =>
      rw [hw1] at h
      simp only [Bind.bind, Except.bind] at h
      obtain ⟨hp1, hl1, hgrow1, hup1, _⟩ := writeLen_basic hwf hw1
      obtain ⟨hp2, hl2, hgrow2, hup2, ⟨seg2, hseg2⟩, hread2⟩ :=
        writeZsetLoop_read mx (elements.zip scores) w1 w' [] hp1 (by omega)
          (fun p hp => hsc p.2 (List.of_mem_zip hp).2) h
      have hziplen : (elements.zip scores).length = elements.length := by
        rw [List.length_zip]
        omega
      have hn : elements.length < 2 ^ 64 := by omega
      obtain ⟨_, _, _, hreadLen⟩ := writeLen_read hwf hn hw1
      intro post
      unfold readZset2
      rw [hseg2, List.append_assoc, hreadLen (seg2 ++ post)]
      simp only [Bind.bind, Except.bind]
      rw [loopCount_small (by omega), ← List.append_assoc, ← hseg2, ← hziplen,
          hread2 post]
      simp

theorem writeHash_read (mx : Nat) (hash : List (Str × Str)) (w w' : Writer)
    (hwf : w.pos = w.data.length) (hlim : w.limit < 2 ^ 63)
    (h : w.writeHash hash = .ok w') :
    ∀ post, readHash mx (fun acc f v => (acc ++ [(f, v)], none))
        ⟨w'.data ++ post, w.data.length⟩ [] =
      .ok (⟨w'.data ++ post, w'.data.length⟩, hash) := by
  unfold Writer.writeHash at h
  cases hw1 : w.writeLen hash.length with
  | error e =>
    rw [hw1] at h
    exact absurd h (by simp [Bind.bind, Except.bind])
  | ok w1 =>
    rw [hw1] at h
    simp only [Bind.bind, Except.bind] at h
    obtain ⟨hp1, hl1, hgrow1, hup1, _⟩ := writeLen_basic hwf hw1
    obtain ⟨hp2, hl2, hgrow2, hup2, ⟨seg2, hseg2⟩, hread2⟩ :=
      writeHashLoop_read mx hash w1 w' [] hp1 (by omega) h
    have hn : hash.length < 2 ^ 64 := by omega
    obtain ⟨_, _, _, hreadLen⟩ := writeLen_read hwf hn hw1
    intro post
    unfold readHash
    rw [hseg2, List.append_assoc, hreadLen (seg2 ++ post)]
    simp only [Bind.bind, Except.bind]
    rw [loopCount_small (by omega), ← List.append_assoc, ← hseg2, hread2 post]
    simp

theorem writeJSON_read (mx : Nat) (j : Str) (w w' : Writer)
    (hwf : w.pos = w.data.length) (hlim : w.limit < 2 ^ 63)
    (h : w.writeJSON j = .ok w') :
    ∀ post, readModule2 mx false ⟨w'.data ++ post, w.data.length⟩ =
      .ok (j, 1, ⟨w'.data ++ post, w'.data.length⟩) := by
  unfold Writer.writeJSON at h
  cases hw1 : w.writeLen ((jsonModuleID &&& 0xFFFFFFFFFFFFFC00) ||| (3 &&& 0x3FF)) with
  | error e =>
    rw [hw1] at h
    exact absurd h (by simp [Bind.bind, Except.bind])
  | ok w1 =>
    rw [hw1] at h
    simp only [Bind.bind, Except.bind] at h
    cases hw2 : w1.writeLen 5 with
    | error e =>
      rw [hw2] at h
      exact absurd h (by simp [Bind.bind, Except.bind])
    | ok w2 =>
      rw [hw2] at h
      simp only [Bind.bind, Except.bind] at h
      cases hw3 : w2.writeString j with
      | error e =>
        rw [hw3] at h
        exact absurd h (by simp [Bind.bind, Except.bind])
      | ok w3 =>
        rw [hw3] at h
        simp only [Bind.bind, Except.bind] at h
        obtain ⟨hp1, hl1, hgrow1, hup1, _⟩ := writeLen_basic hwf hw1
        obtain ⟨_, _, _, hread1⟩ := writeLen_read hwf (by decide) hw1
        obtain ⟨hp2, hl2, hgrow2, hup2, _⟩ := writeLen_basic hp1 hw2
        obtain ⟨_, _, _, hread2⟩ := writeLen_read hp1 (by decide) hw2
        obtain ⟨hp3, hl3, hgrow3, hup3, ⟨seg3, hseg3⟩, hread3⟩ :=
          writeString_read mx hp2 (by omega) hw3
        obtain ⟨hp4, hl4, hgrow4, hup4, ⟨seg4, hseg4⟩⟩ := writeLen_basic hp3 h
        obtain ⟨_, _, _, hread4⟩ := writeLen_read hp3 (by decide) h
        obtain ⟨seg1, hseg1⟩ : ∃ seg, w1.data = w.data ++ seg := by
          obtain ⟨_, _, _, _, hs⟩ := writeLen_basic hwf hw1
          exact hs
        obtain ⟨seg2, hseg2⟩ : ∃ seg, w2.data = w1.data ++ seg := by
          obtain ⟨_, _, _, _, hs⟩ := writeLen_basic hp1 hw2
          exact hs
        intro post
        unfold readModule2
        have h1 := hread1 (seg2 ++ (seg3 ++ (seg4 ++ post)))
        have h2 := hread2 (seg3 ++ (seg4 ++ post))
        have h3 := hread3 (seg4 ++ post)
        have h4 := hread4 post
        rw [hseg4, hseg3, hseg2] at h4 ⊢
        rw [List.append_assoc ((w1.data ++ seg2) ++ seg3) seg4 post] at h4 ⊢
        rw [List.append_assoc (w1.data ++ seg2) seg3 (seg4 ++ post)] at h4 ⊢
        rw [List.append_assoc w1.data seg2 (seg3 ++ (seg4 ++ post))] at h4 ⊢
        rw [hseg3, hseg2] at h3
        rw [List.append_assoc (w1.data ++ seg2) seg3 (seg4 ++ post)] at h3
        rw [List.append_assoc w1.data seg2 (seg3 ++ (seg4 ++ post))] at h3
        rw [hseg2] at h2
        rw [List.append_assoc w1.data seg2 (seg3 ++ (seg4 ++ post))] at h2
        rw [h1]
        simp only [Bind.bind, Except.bind]
        rw [if_pos (by decide)]
        unfold moduleReadJSON
        rw [if_neg (by decide), if_pos (by decide)]
        unfold moduleReadString
        rw [h2]
        simp only [Bind.bind, Except.bind]
        rw [if_neg (by decide)]
        rw [h3]
        simp only [Bind.bind, Except.bind]
        unfold moduleReadEOF
        rw [h4]
        simp [Bind.bind, Except.bind]



/-- C1 (amended): for dumps in the Writer's image the round trip is the
identity, for every per-type write call except the stream writer: a value
encoded by `WriteString`, `WriteList`, `WriteSet`, `WriteZset`,
`WriteHash` or `WriteJSON` decodes back to exactly that value through the
corresponding per-type decoder, consuming the whole buffer. -/
theorem c1_roundtrip_on_writer_image (mx : Nat) :
    (∀ (s : Str) (w : Writer), Writer.new.writeString s = .ok w →
      readString mx (Buf.ofBytes w.buffer) = .ok (s, ⟨w.buffer, w.buffer.length⟩)) ∧
    (∀ (l : List Str) (w : Writer), Writer.new.writeList l = .ok w →
      readList mx (fun acc e => (acc ++ [e], none)) (Buf.ofBytes w.buffer) [] =
        .ok (l.length, ⟨w.buffer, w.buffer.length⟩, l)) ∧
    (∀ (l : List Str) (w : Writer), Writer.new.writeSet l = .ok w →
      readSet mx (fun acc e => (acc ++ [e], none)) (Buf.ofBytes w.buffer) [] =
        .ok (⟨w.buffer, w.buffer.length⟩, l)) ∧
    (∀ (elements : List Str) (scores : List Nat) (w : Writer),
      (∀ sc ∈ scores, sc < 2 ^ 64) →
      Writer.new.writeZset elements scores = .ok w →
      readZset2 mx (fun acc e sc => (acc ++ [(e, sc)], none))
          (Buf.ofBytes w.buffer) [] =
        .ok (elements.length, ⟨w.buffer, w.buffer.length⟩, elements.zip scores)) ∧
    (∀ (hash : List (Str × Str)) (w : Writer), Writer.new.writeHash hash = .ok w →
      readHash mx (fun acc f v => (acc ++ [(f, v)], none)) (Buf.ofBytes w.buffer) [] =
        .ok (⟨w.buffer, w.buffer.length⟩, hash)) ∧
    (∀ (j : Str) (w : Writer), Writer.new.writeJSON j = .ok w →
      readModule2 mx false (Buf.ofBytes w.buffer) =
        .ok (j, 1, ⟨w.buffer, w.buffer.length⟩)) := by
  have hbuf : ∀ w : Writer, w.pos = w.data.length → w.buffer = w.data := by
    intro w hp
    unfold Writer.buffer
    rw [hp, List.take_length]
  refine ⟨?_, ?_, ?_, ?_, ?_, ?_⟩
  · intro s w hok
    obtain ⟨hp, _, _, _, _, hread⟩ := writeString_read mx rfl (by decide) hok
    have h0 := hread []
    rw [List.append_nil] at h0
    rw [hbuf w hp]
    exact h0
  · intro l w hok
    have hread := writeList_read mx l Writer.new w rfl (by decide) hok
    have hp : w.pos = w.data.length := by
      unfold Writer.writeList at hok
      cases hw1 : Writer.new.writeLen l.length with
      | error e =>
        rw [hw1] at hok
        exact absurd hok (by simp [Bind.bind, Except.bind])
      | ok w1 =>
        rw [hw1] at hok
        simp only [Bind.bind, Except.bind] at hok
        obtain ⟨hp1, _⟩ := writeLen_basic rfl hw1
        exact (writeStringsLoop_read mx l w1 w [] hp1 (by
          have := (writeLen_basic rfl hw1).2.1
          have hnl : Writer.new.limit = 1048576 := rfl
          omega) hok).1
    have h0 := hread []
    rw [List.append_nil] at h0
    rw [hbuf w hp]
    exact h0
  · intro l w hok
    have hread := writeSet_read mx l Writer.new w rfl (by decide) hok
    have hp : w.pos = w.data.length := by
      unfold Writer.writeSet at hok
      cases hw1 : Writer.new.writeLen l.length with
      | error e =>
        rw [hw1] at hok
        exact absurd hok (by simp [Bind.bind, Except.bind])
      | ok w1 =>
        rw [hw1] at hok
        simp only [Bind.bind, Except.bind] at hok
        obtain ⟨hp1, _⟩ := writeLen_basic rfl hw1
        exact (writeStringsLoop_read mx l w1 w [] hp1 (by
          have := (writeLen_basic rfl hw1).2.1
          have hnl : Writer.new.limit = 1048576 := rfl
          omega) hok).1
    have h0 := hread []
    rw [List.append_nil] at h0
    rw [hbuf w hp]
    exact h0
  · intro elements scores w hsc hok
    have hread := writeZset_read mx elements scores Writer.new w rfl (by decide) hsc hok
    have hp : w.pos = w.data.length := by
      unfold Writer.writeZset at hok
      by_cases hne : elements.length ≠ scores.length
      · rw [if_pos hne] at hok
        exact absurd hok (by simp)
      · rw [if_neg hne] at hok
        cases hw1 : Writer.new.writeLen elements.length with
        | error e =>
          rw [hw1] at hok
          exact absurd hok (by simp [Bind.bind, Except.bind])
        | ok w1 =>
          rw [hw1] at hok
          simp only [Bind.bind, Except.bind] at hok
          obtain ⟨hp1, _⟩ := writeLen_basic rfl hw1
          exact (writeZsetLoop_read mx (elements.zip scores) w1 w [] hp1 (by
            have := (writeLen_basic rfl hw1).2.1
            have hnl : Writer.new.limit = 1048576 := rfl
            omega) (fun p hpm => hsc p.2 (List.of_mem_zip hpm).2) hok).1
    have h0 := hread []
    rw [List.append_nil] at h0
    rw [hbuf w hp]
    exact h0
  · intro hash w hok
    have hread := writeHash_read mx hash Writer.new w rfl (by decide) hok
    have hp : w.pos = w.data.length := by
      unfold Writer.writeHash at hok
      cases hw1 : Writer.new.writeLen hash.length with
      | error e =>
        rw [hw1] at hok
        exact absurd hok (by simp [Bind.bind, Except.bind])
      | ok w1 =>
        rw [hw1] at hok
        simp only [Bind.bind, Except.bind] at hok
        obtain ⟨hp1, _⟩ := writeLen_basic rfl hw1
        exact (writeHashLoop_read mx hash w1 w [] hp1 (by
          have := (writeLen_basic rfl hw1).2.1
          have hnl : Writer.new.limit = 1048576 := rfl
          omega) hok).1
    have h0 := hread []
    rw [List.append_nil] at h0
    rw [hbuf w hp]
    exact h0
  · intro j w hok
    have hread := writeJSON_read mx j Writer.new w rfl (by decide) hok
    have hp : w.pos = w.data.length := by
      unfold Writer.writeJSON at hok
      cases hw1 : Writer.new.writeLen ((jsonModuleID &&& 0xFFFFFFFFFFFFFC00) ||| (3 &&& 0x3FF)) with
      | error e =>
        rw [hw1] at hok
        exact absurd hok (by simp [Bind.bind, Except.bind])
      | ok w1 =>
        rw [hw1] at hok
        simp only [Bind.bind, Except.bind] at hok
        cases hw2 : w1.writeLen 5 with
        | error e =>
          rw [hw2] at hok
          exact absurd hok (by simp [Bind.bind, Except.bind])
        | ok w2 =>
          rw [hw2] at hok
          simp only [Bind.bind, Except.bind] at hok
          cases hw3 : w2.writeString j with
          | error e =>
            rw [hw3] at hok
            exact absurd hok (by simp [Bind.bind, Except.bind])
          | ok w3 =>
            rw [hw3] at hok
            simp only [Bind.bind, Except.bind] at hok
            obtain ⟨hp1, hl1, _⟩ := writeLen_basic rfl hw1
            obtain ⟨hp2, hl2, _⟩ := writeLen_basic hp1 hw2
            have hnl : Writer.new.limit = 1048576 := rfl
            obtain ⟨hp3, hl3, _⟩ := writeString_read mx hp2 (by omega) hw3
            exact (writeLen_basic hp3 hok).1
    have h0 := hread []
    rw [List.append_nil] at h0
    rw [hbuf w hp]
    exact h0

/-- C1 counterexample to the claim as stated: the int8-encoded string
dump `[0xC0, 42]` decodes to the two-byte string 42, which the Writer
re-encodes raw as `[2, 52, 50]` — not the original bytes. -/
theorem c1_counterexample :
    readString 0 (Buf.ofBytes [192, 42]) = .ok ([52, 50], ⟨[192, 42], 2⟩) ∧
    Writer.new.writeString [52, 50] = .ok ⟨[2, 52, 50], 3, 1 <<< 20⟩ ∧
    ([2, 52, 50] : List Nat) ≠ [192, 42] :=
  ⟨by decide, by decide, by decide⟩

/-- Witness for C1 on a concrete successful `WriteString` encoding. -/
theorem c1_witness :
    readString 0 (Buf.ofBytes (Writer.mk [2, 52, 50] 3 (1 <<< 20)).buffer) =
      .ok ([52, 50], ⟨(Writer.mk [2, 52, 50] 3 (1 <<< 20)).buffer,
        (Writer.mk [2, 52, 50] 3 (1 <<< 20)).buffer.length⟩) :=
  (c1_roundtrip_on_writer_image 0).1 [52, 50] (Writer.mk [2, 52, 50] 3 (1 <<< 20))
    (by decide)

end RDB
